import Mathlib

/-!
# libcamera adaptation layers: V4L2 compatibility camera and GStreamer capture pad

A shallow embedding of `src/v4l2/v4l2_camera.cpp` and
`src/gstreamer/gstlibcamerapad.cpp`.

The camera engine (`libcamera::Camera`, `CameraConfiguration::validate`,
`Stream::createBuffer`, `Request::addBuffer`) and the GStreamer pad primitives
are external collaborators.  They are taken as parameters: every engine entry
point is a function of the calls made on the camera so far, so that any
deterministic engine is an instance, and every call is recorded in a call log
that the theorems read back.
-/

namespace Libcamera

/-! ## errno values (Linux `<errno.h>`) -/

def ENOMEM : Int := 12
def EACCES : Int := 13
def EBUSY : Int := 16
def EINVAL : Int := 22

/-! ## Engine-side data -/

/-- Modelled from the spec: the completion status carried by a buffer
(`buffer->status()`), whose declaration is in `libcamera/buffer.h`. -/
inductive BufferStatus where
  | Complete
  | Error
  | Cancelled
  deriving DecidableEq, Repr

/-- Modelled from the spec: the status of a request (`request->status()`).
The source names `Request::RequestCancelled`; the other completion outcomes
are the spec's, and `RequestPending` is the status of a request that has not
completed yet. -/
inductive RequestStatus where
  | RequestPending
  | RequestComplete
  | RequestError
  | RequestCancelled
  deriving DecidableEq, Repr

/-- The fields of `libcamera::Buffer` read by `V4L2FrameMetadata`. -/
structure Buffer where
  index : Nat
  bytesused : Nat
  timestamp : Nat
  sequence : Nat
  status : BufferStatus
  deriving DecidableEq, Repr

/-- A `libcamera::Request`: `cookie` stands for the identity of the object,
`buffers` is the stream-to-buffer map in iteration order, so that its head is
`buffers().begin()`. -/
structure Request where
  cookie : Nat
  status : RequestStatus
  buffers : List (Nat × Buffer)
  deriving DecidableEq, Repr

structure Size where
  width : Nat
  height : Nat
  deriving DecidableEq, Repr

/-- The public fields of `libcamera::StreamConfiguration` written by
`V4L2Camera::configure`. -/
structure StreamConfiguration where
  size : Size
  pixelFormat : Nat
  bufferCount : Nat
  deriving DecidableEq, Repr

/-- A `CameraConfiguration` holding at least one stream configuration:
`at0` is `config_->at(0)`, the only entry this layer reads or writes. -/
structure CameraConfiguration where
  at0 : StreamConfiguration
  rest : List StreamConfiguration
  deriving DecidableEq, Repr

/-- `CameraConfiguration::Status`. -/
inductive ConfigStatus where
  | Valid
  | Adjusted
  | Invalid
  deriving DecidableEq, Repr

/-- The calls this layer makes into the engine.  A request pointer is an
`Option Request`: `none` is the null pointer left behind by
`unique_ptr::release`. -/
inductive CameraCall where
  | configure (config : CameraConfiguration)
  | allocateBuffers
  | freeBuffers
  | start
  | stop
  | createBuffer (index : Nat)
  | createRequest
  | queueRequest (request : Option Request)
  deriving DecidableEq, Repr

/-- The camera engine as seen from this layer.  Each entry point answers from
the calls made so far; `validate` and `configure` receive the configuration
by pointer and may rewrite it. -/
structure Engine where
  validate : CameraConfiguration → ConfigStatus × CameraConfiguration
  configure : List CameraCall → CameraConfiguration → Int × CameraConfiguration
  allocateBuffers : List CameraCall → Int
  start : List CameraCall → Int
  stop : List CameraCall → Int
  createBuffer : List CameraCall → Nat → Option Buffer
  createRequest : List CameraCall → Option Request
  addBuffer : Request → Buffer → Int × Request
  queueRequest : List CameraCall → Option Request → Int

/-! ## `v4l2_camera.cpp` -/

structure V4L2FrameMetadata where
  index_ : Nat
  bytesused_ : Nat
  timestamp_ : Nat
  sequence_ : Nat
  status_ : BufferStatus
  deriving DecidableEq, Repr

/-- `V4L2FrameMetadata::V4L2FrameMetadata(Buffer *buffer)`. -/
def V4L2FrameMetadata.ofBuffer (buffer : Buffer) : V4L2FrameMetadata :=
  { index_ := buffer.index, bytesused_ := buffer.bytesused,
    timestamp_ := buffer.timestamp, sequence_ := buffer.sequence,
    status_ := buffer.status }

/-- The state of a `V4L2Camera` after a successful `open()`.  `camera_` is
the log of the calls made on the camera handle, oldest first; `bufferSema_`
counts the releases of the semaphore. -/
structure V4L2Camera where
  camera_ : List CameraCall
  config_ : CameraConfiguration
  isRunning_ : Bool
  pendingRequests_ : List (Option Request)
  completedBuffers_ : List V4L2FrameMetadata
  bufferSema_ : Nat
  deriving DecidableEq, Repr

/-- The translation `ret == -EACCES ? -EBUSY : ret` applied at every engine
boundary. -/
def busyOr (ret : Int) : Int :=
  if ret = -EACCES then -EBUSY else ret

/-- `V4L2Camera::getStreamConfig`. -/
def V4L2Camera.getStreamConfig (cam : V4L2Camera) : StreamConfiguration :=
  cam.config_.at0

/-- `V4L2Camera::completedBuffers`: copies the list out and clears it. -/
def V4L2Camera.completedBuffers (cam : V4L2Camera) :
    List V4L2FrameMetadata × V4L2Camera :=
  (cam.completedBuffers_, { cam with completedBuffers_ := [] })

/-- `V4L2Camera::requestComplete`.  The result is `none` when a request that
is not cancelled has an empty buffer map, where `begin()` may not be
dereferenced. -/
def V4L2Camera.requestComplete (cam : V4L2Camera) (request : Request) :
    Option V4L2Camera :=
  if request.status = RequestStatus.RequestCancelled then some cam
  else
    match request.buffers with
    | [] => none
    | (_, buffer) :: _ =>
      some { cam with
        completedBuffers_ :=
          cam.completedBuffers_ ++ [V4L2FrameMetadata.ofBuffer buffer],
        bufferSema_ := cam.bufferSema_ + 1 }

/-- The engine delivering a sequence of completions, one after the other. -/
def V4L2Camera.requestCompleteAll (cam : V4L2Camera) :
    List Request → Option V4L2Camera
  | [] => some cam
  | request :: requests =>
    match cam.requestComplete request with
    | none => none
    | some cam' => cam'.requestCompleteAll requests

/-- The result of `V4L2Camera::configure`: the return code, the value written
through `streamConfigOut` (`none` when nothing was written) and the state. -/
structure ConfigureResult where
  ret : Int
  streamConfigOut : Option StreamConfiguration
  cam : V4L2Camera
  deriving DecidableEq, Repr

/-- The stored configuration after `configure` has written the requested
values into `config_->at(0)`. -/
def V4L2Camera.requested (cam : V4L2Camera) (size : Size) (pixelformat : Nat)
    (bufferCount : Nat) : CameraConfiguration :=
  { cam.config_ with
    at0 := { size := { width := size.width, height := size.height },
             pixelFormat := pixelformat, bufferCount := bufferCount } }

/-- `V4L2Camera::configure`. -/
def V4L2Camera.configure (eng : Engine) (cam : V4L2Camera) (size : Size)
    (pixelformat : Nat) (bufferCount : Nat) : ConfigureResult :=
  let validated := eng.validate (cam.requested size pixelformat bufferCount)
  if validated.1 = ConfigStatus.Invalid then
    { ret := -EINVAL, streamConfigOut := none,
      cam := { cam with config_ := validated.2 } }
  else
    let pushed := eng.configure cam.camera_ validated.2
    let cam' : V4L2Camera :=
      { cam with config_ := pushed.2,
                 camera_ := cam.camera_ ++ [CameraCall.configure validated.2] }
    if pushed.1 < 0 then
      { ret := pushed.1, streamConfigOut := none, cam := cam' }
    else
      { ret := 0, streamConfigOut := some pushed.2.at0, cam := cam' }

/-- `V4L2Camera::allocBuffers`. -/
def V4L2Camera.allocBuffers (eng : Engine) (cam : V4L2Camera) (_count : Nat) :
    Int × V4L2Camera :=
  let ret := eng.allocateBuffers cam.camera_
  (busyOr ret, { cam with camera_ := cam.camera_ ++ [CameraCall.allocateBuffers] })

/-- `V4L2Camera::freeBuffers`. -/
def V4L2Camera.freeBuffers (cam : V4L2Camera) : V4L2Camera :=
  { cam with camera_ := cam.camera_ ++ [CameraCall.freeBuffers] }

/-- The loop of `V4L2Camera::streamOn` over `pendingRequests_`, started with
the call log `calls`.  Each visited entry is released (left null) and handed
to `queueRequest`; a negative result leaves the loop at once.  The first
component is `some ret` for such an early return and `none` when the loop ran
to its end. -/
def flushPending (eng : Engine) :
    List CameraCall → List (Option Request) →
      Option Int × List (Option Request) × List CameraCall
  | calls, [] => (none, [], calls)
  | calls, req :: rest =>
    let ret := eng.queueRequest calls req
    let calls' := calls ++ [CameraCall.queueRequest req]
    if ret < 0 then (some (busyOr ret), none :: rest, calls')
    else
      let r := flushPending eng calls' rest
      (r.1, none :: r.2.1, r.2.2)

/-- `V4L2Camera::streamOn`. -/
def V4L2Camera.streamOn (eng : Engine) (cam : V4L2Camera) : Int × V4L2Camera :=
  if cam.isRunning_ then (0, cam)
  else
    let ret := eng.start cam.camera_
    let calls := cam.camera_ ++ [CameraCall.start]
    if ret < 0 then (busyOr ret, { cam with camera_ := calls })
    else
      let r := flushPending eng calls cam.pendingRequests_
      match r.1 with
      | some err =>
        (err, { cam with isRunning_ := true, pendingRequests_ := r.2.1,
                         camera_ := r.2.2 })
      | none =>
        (0, { cam with isRunning_ := true, pendingRequests_ := [],
                       camera_ := r.2.2 })

/-- `V4L2Camera::streamOff`. -/
def V4L2Camera.streamOff (eng : Engine) (cam : V4L2Camera) : Int × V4L2Camera :=
  if !cam.isRunning_ then (0, cam)
  else
    let ret := eng.stop cam.camera_
    let calls := cam.camera_ ++ [CameraCall.stop]
    if ret < 0 then (busyOr ret, { cam with camera_ := calls })
    else (0, { cam with isRunning_ := false, camera_ := calls })

/-- The first half of `V4L2Camera::qbuf`: create the buffer wrapper and the
request and attach the one to the other.  `none` is the `-ENOMEM` return; the
call log is returned in both cases. -/
def buildRequest (eng : Engine) (calls : List CameraCall) (index : Nat) :
    Option Request × List CameraCall :=
  match eng.createBuffer calls index with
  | none => (none, calls ++ [CameraCall.createBuffer index])
  | some buffer =>
    let calls1 := calls ++ [CameraCall.createBuffer index]
    match eng.createRequest calls1 with
    | none => (none, calls1 ++ [CameraCall.createRequest])
    | some request =>
      let calls2 := calls1 ++ [CameraCall.createRequest]
      let added := eng.addBuffer request buffer
      if added.1 < 0 then (none, calls2) else (some added.2, calls2)

/-- `V4L2Camera::qbuf`. -/
def V4L2Camera.qbuf (eng : Engine) (cam : V4L2Camera) (index : Nat) :
    Int × V4L2Camera :=
  match buildRequest eng cam.camera_ index with
  | (none, calls) => (-ENOMEM, { cam with camera_ := calls })
  | (some request, calls) =>
    if !cam.isRunning_ then
      (0, { cam with camera_ := calls,
                     pendingRequests_ := cam.pendingRequests_ ++ [some request] })
    else
      let ret := eng.queueRequest calls (some request)
      let cam' : V4L2Camera :=
        { cam with camera_ := calls ++ [CameraCall.queueRequest (some request)] }
      if ret < 0 then (busyOr ret, cam') else (0, cam')

/-- The requests handed to `queueRequest` in a call log, in call order. -/
def submitted : List CameraCall → List (Option Request)
  | [] => []
  | CameraCall.queueRequest request :: calls => request :: submitted calls
  | _ :: calls => submitted calls

/-- The frame descriptors built from a sequence of completions: one for each
request that is not cancelled and carries a buffer. -/
def descriptors : List Request → List V4L2FrameMetadata
  | [] => []
  | request :: requests =>
    if request.status = RequestStatus.RequestCancelled then descriptors requests
    else
      match request.buffers with
      | [] => descriptors requests
      | (_, buffer) :: _ => V4L2FrameMetadata.ofBuffer buffer :: descriptors requests

/-- A frame descriptor is the copy of the first buffer of a request. -/
def CopiedFrom (request : Request) (metadata : V4L2FrameMetadata) : Prop :=
  ∃ stream buffer others, request.buffers = (stream, buffer) :: others ∧
    metadata.index_ = buffer.index ∧ metadata.bytesused_ = buffer.bytesused ∧
    metadata.timestamp_ = buffer.timestamp ∧ metadata.sequence_ = buffer.sequence ∧
    metadata.status_ = buffer.status

/-- Successive `qbuf` calls, one per index, in order: the return codes and the
final state. -/
def qbufAll (eng : Engine) : V4L2Camera → List Nat → List Int × V4L2Camera
  | cam, [] => ([], cam)
  | cam, index :: indices =>
    let r := cam.qbuf eng index
    let rs := qbufAll eng r.2 indices
    (r.1 :: rs.1, rs.2)

/-- The call log at the moment the loop of `streamOn`, started with `calls`,
hands the `k`-th entry of `requests` to `queueRequest`. -/
def flushCalls (calls : List CameraCall) (requests : List (Option Request)) (k : Nat) :
    List CameraCall :=
  calls ++ (requests.take k).map CameraCall.queueRequest

/-- The answer of the engine to the `k`-th `queueRequest` of the loop of
`streamOn` started with `calls` (`0` past the end of the list). -/
def flushAnswer (eng : Engine) (calls : List CameraCall) (requests : List (Option Request))
    (k : Nat) : Int :=
  match requests.get? k with
  | none => 0
  | some req => eng.queueRequest (flushCalls calls requests k) req

/-- The result `ret` handed to the caller for the engine result `engine`:
`-EBUSY` for `-EACCES`, the engine result itself otherwise. -/
def Translated (engine ret : Int) : Prop :=
  (engine = -EACCES → ret = -EBUSY) ∧ (engine ≠ -EACCES → ret = engine)

/-- A call on the capture session. -/
inductive SessionCall where
  | streamOn
  | streamOff
  | qbuf (index : Nat)
  deriving DecidableEq, Repr

/-- One call of `streamOn`, `streamOff` or `qbuf`: the state it leaves. -/
def SessionCall.run (eng : Engine) (cam : V4L2Camera) : SessionCall → V4L2Camera
  | SessionCall.streamOn => (cam.streamOn eng).2
  | SessionCall.streamOff => (cam.streamOff eng).2
  | SessionCall.qbuf index => (cam.qbuf eng index).2

/-- A sequence of `streamOn`, `streamOff` and `qbuf` calls, in order. -/
def runSessionCalls (eng : Engine) (cam : V4L2Camera) (calls : List SessionCall) :
    V4L2Camera :=
  calls.foldl (SessionCall.run eng) cam

/-- What is handed to `queueRequest` is not taken from a request held in the
pending list: it is a null pointer, or the request that one of the `qbuf`
calls of `calls` built itself. -/
def NotFromPending (eng : Engine) (calls : List SessionCall) (x : Option Request) : Prop :=
  x = none ∨
    ∃ index request log, SessionCall.qbuf index ∈ calls ∧ x = some request ∧
      (buildRequest eng log index).1 = some request

/-! ### Sample engines and sessions -/

/-- An engine that accepts every call.  Validation reports `Invalid` for a
zero width, raises a zero buffer count to one (`Adjusted`) and reports
`Valid` otherwise; a created request carries the number of calls made so far
as its cookie. -/
def acceptAll : Engine where
  validate := fun config =>
    if config.at0.size.width = 0 then (ConfigStatus.Invalid, config)
    else if config.at0.bufferCount = 0 then
      (ConfigStatus.Adjusted, { config with at0 := { config.at0 with bufferCount := 1 } })
    else (ConfigStatus.Valid, config)
  configure := fun _ config => (0, config)
  allocateBuffers := fun _ => 0
  start := fun _ => 0
  stop := fun _ => 0
  createBuffer := fun _ index =>
    some { index := index, bytesused := 0, timestamp := 0, sequence := 0,
           status := BufferStatus.Complete }
  createRequest := fun calls =>
    some { cookie := calls.length, status := RequestStatus.RequestPending, buffers := [] }
  addBuffer := fun request buffer =>
    (0, { request with buffers := request.buffers ++ [(0, buffer)] })
  queueRequest := fun _ _ => 0

/-- An engine that accepts every call except `queueRequest`, which it rejects
with `-EINVAL`. -/
def rejecting : Engine :=
  { acceptAll with queueRequest := fun _ _ => -EINVAL }

/-- An engine that accepts every call, a null request included, except the
`queueRequest` of the request built first on a fresh session, which it
rejects with `-EINVAL`. -/
def rejectingOne : Engine :=
  { acceptAll with
    queueRequest := fun _ request =>
      if request = some { cookie := 1, status := RequestStatus.RequestPending,
                          buffers := [(0, { index := 0, bytesused := 0, timestamp := 0,
                                            sequence := 0,
                                            status := BufferStatus.Complete })] }
      then -EINVAL else 0 }

/-- An engine that starts, and answers `-EACCES` to `allocateBuffers`, `stop`
and `queueRequest`. -/
def denying : Engine :=
  { acceptAll with
    allocateBuffers := fun _ => -EACCES
    stop := fun _ => -EACCES
    queueRequest := fun _ _ => -EACCES }

/-- An engine that answers `-EACCES` to `start`. -/
def denyingStart : Engine :=
  { acceptAll with start := fun _ => -EACCES }

/-- A session right after `open()`: idle, nothing pending, nothing completed,
a 640x480 configuration with four buffers. -/
def opened : V4L2Camera :=
  { camera_ := [],
    config_ := { at0 := { size := { width := 640, height := 480 }, pixelFormat := 1,
                          bufferCount := 4 },
                 rest := [] },
    isRunning_ := false, pendingRequests_ := [], completedBuffers_ := [],
    bufferSema_ := 0 }

/-- The request `acceptAll` builds for `qbuf(index)` when `calls` calls were
made before its `createRequest`. -/
def builtRequest (calls : Nat) (index : Nat) : Request :=
  { cookie := calls, status := RequestStatus.RequestPending,
    buffers := [(0, { index := index, bytesused := 0, timestamp := 0, sequence := 0,
                      status := BufferStatus.Complete })] }

/-- A completed request carrying one buffer. -/
def completedRequest (cookie : Nat) (status : RequestStatus) (index : Nat) : Request :=
  { cookie := cookie, status := status,
    buffers := [(0, { index := index, bytesused := 4096, timestamp := 1000 + cookie,
                      sequence := cookie, status := BufferStatus.Complete })] }

/-- Three completions in arrival order, the second one cancelled. -/
def sampleCompletions : List Request :=
  [completedRequest 1 RequestStatus.RequestComplete 2,
   completedRequest 2 RequestStatus.RequestCancelled 0,
   completedRequest 3 RequestStatus.RequestComplete 1]

/-! ## `gstlibcamerapad.cpp` -/

namespace Gst

/-- `GST_FLOW_OK`. -/
def GST_FLOW_OK : Int := 0

/-- `libcamera::StreamRole`, as listed in `gst_libcamera_stream_role_get_type`. -/
inductive StreamRole where
  | StillCapture
  | VideoRecording
  | Viewfinder
  deriving DecidableEq, Repr

/-- A non-null `GstBuffer *`. -/
structure GstBuffer where
  id : Nat
  deriving DecidableEq, Repr

/-- A stream-start event: the stream identifier it was created with and the
group id set on it. -/
structure StreamStart where
  stream_id : List Char
  group_id : Nat
  deriving DecidableEq, Repr

/-- What the parent `GstPad` has sent downstream: the buffers given to
`gst_pad_push` and the events given to `gst_pad_push_event`, oldest first. -/
structure GstPad where
  pushed : List GstBuffer
  events : List StreamStart
  deriving DecidableEq, Repr

/-- `struct _GstLibcameraPad`.  `pending_buffers` is the `GQueue`, head first;
`pool` is a nullable handle. -/
structure GstLibcameraPad where
  parent : GstPad
  role : StreamRole
  pool : Option Nat
  pending_buffers : List GstBuffer
  latency : Nat
  stream_id_num : Int
  deriving DecidableEq, Repr

/-- The zero-filled instance memory GObject hands to the instance
initialiser. -/
def zeroed : GstLibcameraPad :=
  { parent := { pushed := [], events := [] }, role := StreamRole.StillCapture,
    pool := none, pending_buffers := [], latency := 0, stream_id_num := 0 }

/-- `gst_libcamera_pad_init`. -/
def gst_libcamera_pad_init (self : GstLibcameraPad) : GstLibcameraPad :=
  { self with stream_id_num := 0 }

/-- `g_queue_push_head`. -/
def g_queue_push_head (queue : List GstBuffer) (data : GstBuffer) : List GstBuffer :=
  data :: queue

/-- `g_queue_pop_tail`: the last element and the queue without it, `none`
(the null pointer) on an empty queue. -/
def g_queue_pop_tail (queue : List GstBuffer) : Option GstBuffer × List GstBuffer :=
  (queue.getLast?, queue.dropLast)

/-- `gst_libcamera_pad_queue_buffer`. -/
def gst_libcamera_pad_queue_buffer (self : GstLibcameraPad) (buffer : GstBuffer) :
    GstLibcameraPad :=
  { self with pending_buffers := g_queue_push_head self.pending_buffers buffer }

/-- `gst_libcamera_pad_push_pending`.  `gst_pad_push` is the downstream peer:
it answers from the buffers pushed before and the one pushed now. -/
def gst_libcamera_pad_push_pending (gst_pad_push : List GstBuffer → GstBuffer → Int)
    (self : GstLibcameraPad) : Int × GstLibcameraPad :=
  let popped := g_queue_pop_tail self.pending_buffers
  let self' := { self with pending_buffers := popped.2 }
  match popped.1 with
  | none => (GST_FLOW_OK, self')
  | some buffer =>
    (gst_pad_push self'.parent.pushed buffer,
     { self' with parent := { self'.parent with
         pushed := self'.parent.pushed ++ [buffer] } })

/-- `gst_libcamera_pad_has_pending`. -/
def gst_libcamera_pad_has_pending (self : GstLibcameraPad) : Bool :=
  decide (self.pending_buffers.length > 0)

/-- `gst_libcamera_pad_set_latency`. -/
def gst_libcamera_pad_set_latency (self : GstLibcameraPad) (latency : Nat) :
    GstLibcameraPad :=
  { self with latency := latency }

/-- A value brought into the range of a 32-bit `int` (two's complement). -/
def wrapInt32 (z : Int) : Int :=
  (z + 2 ^ 31) % 2 ^ 32 - 2 ^ 31

/-- The decimal numeral of a natural number, most significant digit first. -/
def decimal (n : Nat) : List Char :=
  if n = 0 then ['0'] else ((Nat.digits 10 n).reverse).map Nat.digitChar

/-- What `printf` writes for a `%i` conversion of an `int`. -/
def printf_i (z : Int) : List Char :=
  if z < 0 then '-' :: decimal z.natAbs else decimal z.toNat

/-- `g_strdup_printf("%i%i", group_id, self->stream_id_num)`: the `guint`
group id is read as an `int` by the conversion. -/
def stream_id_intermediate (group_id : Nat) (stream_id_num : Int) : List Char :=
  printf_i (wrapInt32 group_id) ++ printf_i stream_id_num

/-- `gst_libcamera_pad_push_stream_start`.  `gst_pad_create_stream_id` is
GStreamer's: it builds the stream identifier of the pad from the given text. -/
def gst_libcamera_pad_push_stream_start
    (gst_pad_create_stream_id : List Char → List Char)
    (self : GstLibcameraPad) (group_id : Nat) : GstLibcameraPad :=
  let self' := { self with stream_id_num := wrapInt32 (self.stream_id_num + 1) }
  let stream_id :=
    gst_pad_create_stream_id (stream_id_intermediate group_id self'.stream_id_num)
  { self' with parent := { self'.parent with
      events := self'.parent.events ++
        [{ stream_id := stream_id, group_id := group_id }] } }

/-- A call on the pending-buffer queue of a pad. -/
inductive QueueCall where
  | queue_buffer (buffer : GstBuffer)
  | push_pending
  deriving DecidableEq, Repr

/-- One call of `gst_libcamera_pad_queue_buffer` or
`gst_libcamera_pad_push_pending`. -/
def QueueCall.run (gst_pad_push : List GstBuffer → GstBuffer → Int)
    (self : GstLibcameraPad) : QueueCall → GstLibcameraPad
  | QueueCall.queue_buffer buffer => gst_libcamera_pad_queue_buffer self buffer
  | QueueCall.push_pending => (gst_libcamera_pad_push_pending gst_pad_push self).2

/-- A sequence of calls on the pending-buffer queue, in order. -/
def runQueueCalls (gst_pad_push : List GstBuffer → GstBuffer → Int)
    (self : GstLibcameraPad) (calls : List QueueCall) : GstLibcameraPad :=
  calls.foldl (QueueCall.run gst_pad_push) self

/-- The buffers given to `gst_libcamera_pad_queue_buffer` by a sequence of
calls, in call order. -/
def queuedBuffers : List QueueCall → List GstBuffer
  | [] => []
  | QueueCall.queue_buffer buffer :: calls => buffer :: queuedBuffers calls
  | QueueCall.push_pending :: calls => queuedBuffers calls

/-- A sequence of `gst_libcamera_pad_push_stream_start` calls, one per group
id, in order. -/
def pushStreamStarts (gst_pad_create_stream_id : List Char → List Char)
    (self : GstLibcameraPad) (group_ids : List Nat) : GstLibcameraPad :=
  group_ids.foldl (gst_libcamera_pad_push_stream_start gst_pad_create_stream_id) self

/-- The stream-start events sent by successive
`gst_libcamera_pad_push_stream_start` calls, one per group id, on a pad whose
counter is `stream_id_num` before the first call and does not overflow. -/
def announced (gst_pad_create_stream_id : List Char → List Char) :
    Int → List Nat → List StreamStart
  | _, [] => []
  | stream_id_num, group_id :: group_ids =>
    { stream_id :=
        gst_pad_create_stream_id (stream_id_intermediate group_id (stream_id_num + 1)),
      group_id := group_id } ::
      announced gst_pad_create_stream_id (stream_id_num + 1) group_ids

/-- The value of a decimal digit character. -/
def digitValue (c : Char) : Nat :=
  c.toNat - 48

/-- Eleven announcements: group id 11 for the first, 1 for the last. -/
def collidingGroups : List Nat :=
  [11, 0, 0, 0, 0, 0, 0, 0, 0, 0, 1]

end Gst

end Libcamera

/-! # Theorems -/

/-! ## Completed-buffer list -/

namespace Libcamera

theorem requestCompleteAll_eq (requests : List Request) :
    ∀ cam : V4L2Camera,
      (∀ r ∈ requests, r.status ≠ RequestStatus.RequestCancelled → r.buffers ≠ []) →
      cam.requestCompleteAll requests =
        some { cam with
          completedBuffers_ := cam.completedBuffers_ ++ descriptors requests,
          bufferSema_ := cam.bufferSema_ + (descriptors requests).length } := by
  induction requests with
  | nil => intro cam _; simp [V4L2Camera.requestCompleteAll, descriptors]
  | cons r rs ih =>
    intro cam h
    have hrs : ∀ x ∈ rs, x.status ≠ RequestStatus.RequestCancelled → x.buffers ≠ [] :=
      fun x hx => h x (List.mem_cons_of_mem _ hx)
    by_cases hc : r.status = RequestStatus.RequestCancelled
    · simp [V4L2Camera.requestCompleteAll, V4L2Camera.requestComplete, descriptors, hc,
        ih cam hrs]
    · have hne := h r (List.mem_cons_self _ _) hc
      cases hb : r.buffers with
      | nil => exact absurd hb hne
      | cons sb others =>
        obtain ⟨stream, buffer⟩ := sb
        simp only [V4L2Camera.requestCompleteAll, V4L2Camera.requestComplete, descriptors,
          hc, hb, if_false]
        rw [ih _ hrs]
        simp [List.append_assoc, Nat.add_assoc, Nat.add_comm 1]

theorem descriptors_forall₂ (requests : List Request) :
    (∀ r ∈ requests, r.status ≠ RequestStatus.RequestCancelled → r.buffers ≠ []) →
    List.Forall₂ CopiedFrom
      (requests.filter (fun r => decide (r.status ≠ RequestStatus.RequestCancelled)))
      (descriptors requests) := by
  induction requests with
  | nil => intro _; simp [descriptors]
  | cons r rs ih =>
    intro h
    have hrs : ∀ x ∈ rs, x.status ≠ RequestStatus.RequestCancelled → x.buffers ≠ [] :=
      fun x hx => h x (List.mem_cons_of_mem _ hx)
    by_cases hc : r.status = RequestStatus.RequestCancelled
    · simpa [descriptors, hc] using ih hrs
    · have hne := h r (List.mem_cons_self _ _) hc
      cases hb : r.buffers with
      | nil => exact absurd hb hne
      | cons sb others =>
        obtain ⟨stream, buffer⟩ := sb
        simp only [descriptors, hc, hb, if_false, List.filter_cons, ne_eq, not_false_eq_true,
          decide_True, if_true]
        exact List.Forall₂.cons
          ⟨stream, buffer, others, hb, rfl, rfl, rfl, rfl, rfl⟩ (ih hrs)

/-- C1: starting from an empty completed-list, after the completions
`requests` have been delivered to `requestComplete` (every request that is not
cancelled carrying a buffer), `completedBuffers()` returns one frame
descriptor per completion whose status is not `RequestCancelled`, in arrival
order, each with index, bytesused, timestamp, sequence and status copied from
the first buffer of its request; a second `completedBuffers()` right after
returns the empty list. -/
theorem completedBuffers_after_completions (cam : V4L2Camera) (requests : List Request)
    (hempty : cam.completedBuffers_ = [])
    (hbuf : ∀ r ∈ requests, r.status ≠ RequestStatus.RequestCancelled → r.buffers ≠ []) :
    ∃ cam', cam.requestCompleteAll requests = some cam' ∧
      List.Forall₂ CopiedFrom
        (requests.filter (fun r => decide (r.status ≠ RequestStatus.RequestCancelled)))
        cam'.completedBuffers.1 ∧
      cam'.completedBuffers.2.completedBuffers.1 = [] := by
  refine ⟨_, requestCompleteAll_eq requests cam hbuf, ?_, rfl⟩
  simpa [V4L2Camera.completedBuffers, hempty] using descriptors_forall₂ requests hbuf

end Libcamera

/-! ## Pending-buffer queue of the pad -/

namespace Libcamera.Gst

theorem push_pending_invariant (gst_pad_push : List GstBuffer → GstBuffer → Int)
    (self : GstLibcameraPad) :
    (gst_libcamera_pad_push_pending gst_pad_push self).2.parent.pushed ++
        (gst_libcamera_pad_push_pending gst_pad_push self).2.pending_buffers.reverse =
      self.parent.pushed ++ self.pending_buffers.reverse := by
  unfold gst_libcamera_pad_push_pending g_queue_pop_tail
  cases h : self.pending_buffers.getLast? with
  | none =>
    have : self.pending_buffers = [] := List.getLast?_eq_none_iff.mp h
    simp [this]
  | some b =>
    have hq : self.pending_buffers.dropLast ++ [b] = self.pending_buffers :=
      List.dropLast_append_getLast? b (by simp [h])
    have hr : self.pending_buffers.reverse = b :: self.pending_buffers.dropLast.reverse := by
      rw [← hq]; simp
    simp [hr]

theorem runQueueCalls_invariant (gst_pad_push : List GstBuffer → GstBuffer → Int)
    (calls : List QueueCall) :
    ∀ self : GstLibcameraPad,
      (runQueueCalls gst_pad_push self calls).parent.pushed ++
          (runQueueCalls gst_pad_push self calls).pending_buffers.reverse =
        self.parent.pushed ++ self.pending_buffers.reverse ++ queuedBuffers calls := by
  induction calls with
  | nil => intro self; simp [runQueueCalls, queuedBuffers]
  | cons c cs ih =>
    intro self
    have hstep : runQueueCalls gst_pad_push self (c :: cs) =
        runQueueCalls gst_pad_push (QueueCall.run gst_pad_push self c) cs := rfl
    rw [hstep, ih]
    cases c with
    | queue_buffer b =>
      simp [QueueCall.run, gst_libcamera_pad_queue_buffer, g_queue_push_head, queuedBuffers]
    | push_pending =>
      simp only [QueueCall.run, queuedBuffers]
      rw [push_pending_invariant]

/-- C2: the pending-buffer queue of a pad is FIFO.  After any sequence of
`gst_libcamera_pad_queue_buffer` and `gst_libcamera_pad_push_pending` calls
on a fresh pad, the buffers pushed downstream followed by the buffers still
pending, oldest first, are the buffers queued, in the order they were queued;
so the pushed buffers are a prefix of the queued ones.  Queue A, queue B and
two pushes emit A then B.  A push on an empty queue returns `GST_FLOW_OK` and
emits nothing. -/
theorem pending_queue_fifo (gst_pad_push : List GstBuffer → GstBuffer → Int)
    (calls : List QueueCall) (self : GstLibcameraPad) (A B : GstBuffer) :
    (runQueueCalls gst_pad_push (gst_libcamera_pad_init zeroed) calls).parent.pushed ++
        (runQueueCalls gst_pad_push (gst_libcamera_pad_init zeroed)
          calls).pending_buffers.reverse = queuedBuffers calls ∧
      (runQueueCalls gst_pad_push (gst_libcamera_pad_init zeroed) calls).parent.pushed <+:
        queuedBuffers calls ∧
      (runQueueCalls gst_pad_push (gst_libcamera_pad_init zeroed)
        [QueueCall.queue_buffer A, QueueCall.queue_buffer B, QueueCall.push_pending,
          QueueCall.push_pending]).parent.pushed = [A, B] ∧
      gst_libcamera_pad_push_pending gst_pad_push { self with pending_buffers := [] } =
        (GST_FLOW_OK, { self with pending_buffers := [] }) := by
  have h := runQueueCalls_invariant gst_pad_push calls (gst_libcamera_pad_init zeroed)
  have h' : (runQueueCalls gst_pad_push (gst_libcamera_pad_init zeroed) calls).parent.pushed ++
        (runQueueCalls gst_pad_push (gst_libcamera_pad_init zeroed)
          calls).pending_buffers.reverse = queuedBuffers calls := by
    simpa [gst_libcamera_pad_init, zeroed] using h
  refine ⟨h', ⟨_, h'⟩, ?_, ?_⟩
  · simp [runQueueCalls, QueueCall.run, gst_libcamera_pad_queue_buffer,
      gst_libcamera_pad_push_pending, g_queue_push_head, g_queue_pop_tail,
      gst_libcamera_pad_init, zeroed]
  · simp [gst_libcamera_pad_push_pending, g_queue_pop_tail]

end Libcamera.Gst

/-! ## Capture session: `streamOn`, `streamOff`, `qbuf` -/

namespace Libcamera

theorem submitted_append (xs ys : List CameraCall) :
    submitted (xs ++ ys) = submitted xs ++ submitted ys := by
  induction xs with
  | nil => rfl
  | cons c cs ih => cases c <;> simp [submitted, ih]

theorem submitted_map_queueRequest (requests : List (Option Request)) :
    submitted (requests.map CameraCall.queueRequest) = requests := by
  induction requests with
  | nil => rfl
  | cons r rs ih => simp [submitted, ih]

theorem flushAnswer_cons (eng : Engine) (calls : List CameraCall) (req : Option Request)
    (rest : List (Option Request)) (k : Nat) :
    flushAnswer eng calls (req :: rest) (k + 1) =
      flushAnswer eng (calls ++ [CameraCall.queueRequest req]) rest k := by
  simp [flushAnswer, flushCalls, List.append_assoc]

/-- The loop of `streamOn` when every request is accepted. -/
theorem flushPending_accepted (eng : Engine) (requests : List (Option Request)) :
    ∀ calls : List CameraCall,
      (∀ k, k < requests.length → 0 ≤ flushAnswer eng calls requests k) →
      flushPending eng calls requests =
        (none, List.replicate requests.length none,
          calls ++ requests.map CameraCall.queueRequest) := by
  induction requests with
  | nil => intro calls _; simp [flushPending]
  | cons r rs ih =>
    intro calls h
    have h0 : 0 ≤ eng.queueRequest calls r := by
      simpa [flushAnswer, flushCalls] using h 0 (Nat.succ_pos _)
    have hrs : ∀ k, k < rs.length →
        0 ≤ flushAnswer eng (calls ++ [CameraCall.queueRequest r]) rs k := by
      intro k hk
      rw [← flushAnswer_cons]
      exact h (k + 1) (Nat.succ_lt_succ hk)
    simp [flushPending, not_lt.mpr h0, ih _ hrs, List.replicate_succ, List.append_assoc]

/-- The loop of `streamOn` when the `k`-th request is the first one rejected. -/
theorem flushPending_rejected (eng : Engine) (requests : List (Option Request)) :
    ∀ (calls : List CameraCall) (k : Nat), k < requests.length →
      (∀ j, j < k → 0 ≤ flushAnswer eng calls requests j) →
      flushAnswer eng calls requests k < 0 →
      flushPending eng calls requests =
        (some (busyOr (flushAnswer eng calls requests k)),
          List.replicate (k + 1) none ++ requests.drop (k + 1),
          calls ++ (requests.take (k + 1)).map CameraCall.queueRequest) := by
  induction requests with
  | nil => intro calls k hk; exact absurd hk (Nat.not_lt_zero _)
  | cons r rs ih =>
    intro calls k hk hacc hrej
    cases k with
    | zero =>
      have h0 : eng.queueRequest calls r < 0 := by
        simpa [flushAnswer, flushCalls] using hrej
      simp [flushPending, h0, flushAnswer, flushCalls]
    | succ k =>
      have h0 : 0 ≤ eng.queueRequest calls r := by
        simpa [flushAnswer, flushCalls] using hacc 0 (Nat.succ_pos _)
      have hk' : k < rs.length := Nat.lt_of_succ_lt_succ hk
      have hacc' : ∀ j, j < k →
          0 ≤ flushAnswer eng (calls ++ [CameraCall.queueRequest r]) rs j := by
        intro j hj
        rw [← flushAnswer_cons]
        exact hacc (j + 1) (Nat.succ_lt_succ hj)
      have hrej' : flushAnswer eng (calls ++ [CameraCall.queueRequest r]) rs k < 0 := by
        rw [← flushAnswer_cons]; exact hrej
      simp [flushPending, not_lt.mpr h0, ih _ k hk' hacc' hrej', flushAnswer_cons,
        List.replicate_succ, List.append_assoc]

theorem busyOr_neg {ret : Int} (h : ret < 0) : busyOr ret < 0 := by
  unfold busyOr
  split
  · decide
  · exact h

theorem flushPending_err_neg (eng : Engine) (requests : List (Option Request)) :
    ∀ (calls : List CameraCall) (err : Int),
      (flushPending eng calls requests).1 = some err → err < 0 := by
  induction requests with
  | nil => intro calls err h; simp [flushPending] at h
  | cons r rs ih =>
    intro calls err h
    by_cases h0 : eng.queueRequest calls r < 0
    · simp [flushPending, h0] at h
      rw [← h]; exact busyOr_neg h0
    · simp [flushPending, h0] at h
      exact ih _ err h

/-- `streamOn` on an idle session when the start and every flushed request
are accepted. -/
theorem streamOn_accepted (eng : Engine) (cam : V4L2Camera)
    (hidle : cam.isRunning_ = false) (hstart : 0 ≤ eng.start cam.camera_)
    (hflush : ∀ k, k < cam.pendingRequests_.length →
      0 ≤ flushAnswer eng (cam.camera_ ++ [CameraCall.start]) cam.pendingRequests_ k) :
    cam.streamOn eng =
      (0, { cam with isRunning_ := true, pendingRequests_ := [],
                     camera_ := cam.camera_ ++ [CameraCall.start] ++
                       cam.pendingRequests_.map CameraCall.queueRequest }) := by
  simp [V4L2Camera.streamOn, hidle, not_lt.mpr hstart,
    flushPending_accepted eng cam.pendingRequests_ _ hflush]

/-- `streamOn` on an idle session when the start is accepted and the `k`-th
pending request is the first one rejected. -/
theorem streamOn_rejected (eng : Engine) (cam : V4L2Camera) (k : Nat)
    (hidle : cam.isRunning_ = false) (hstart : 0 ≤ eng.start cam.camera_)
    (hk : k < cam.pendingRequests_.length)
    (hacc : ∀ j, j < k →
      0 ≤ flushAnswer eng (cam.camera_ ++ [CameraCall.start]) cam.pendingRequests_ j)
    (hrej : flushAnswer eng (cam.camera_ ++ [CameraCall.start]) cam.pendingRequests_ k < 0) :
    cam.streamOn eng =
      (busyOr (flushAnswer eng (cam.camera_ ++ [CameraCall.start]) cam.pendingRequests_ k),
        { cam with isRunning_ := true,
                   pendingRequests_ :=
                     List.replicate (k + 1) none ++ cam.pendingRequests_.drop (k + 1),
                   camera_ := cam.camera_ ++ [CameraCall.start] ++
                     (cam.pendingRequests_.take (k + 1)).map CameraCall.queueRequest }) := by
  simp [V4L2Camera.streamOn, hidle, not_lt.mpr hstart,
    flushPending_rejected eng cam.pendingRequests_ _ k hk hacc hrej]

/-- `streamOn` on a running session changes nothing and calls nothing. -/
theorem streamOn_running (eng : Engine) (cam : V4L2Camera) (h : cam.isRunning_ = true) :
    cam.streamOn eng = (0, cam) := by
  simp [V4L2Camera.streamOn, h]

/-- A `streamOn` that returns 0 leaves the session running. -/
theorem streamOn_zero_running (eng : Engine) (cam : V4L2Camera)
    (h : (cam.streamOn eng).1 = 0) : (cam.streamOn eng).2.isRunning_ = true := by
  unfold V4L2Camera.streamOn at h ⊢
  by_cases hr : cam.isRunning_ = true
  · simp [hr]
  · simp only [hr] at h ⊢
    by_cases hs : eng.start cam.camera_ < 0
    · simp [hs] at h
      have := busyOr_neg hs
      omega
    · simp only [hs] at h ⊢
      cases hf : (flushPending eng (cam.camera_ ++ [CameraCall.start])
          cam.pendingRequests_).1 with
      | none => simp [hf]
      | some err => simp [hf]

theorem buildRequest_submitted (eng : Engine) (calls : List CameraCall) (index : Nat) :
    submitted (buildRequest eng calls index).2 = submitted calls := by
  unfold buildRequest
  cases hb : eng.createBuffer calls index with
  | none => simp [submitted_append, submitted]
  | some buffer =>
    cases hr : eng.createRequest (calls ++ [CameraCall.createBuffer index]) with
    | none => simp [hr, submitted_append, submitted]
    | some request =>
      by_cases h : (eng.addBuffer request buffer).1 < 0 <;>
        simp [hr, h, submitted_append, submitted]

/-- `qbuf` on an idle session that returns 0 appends the request it built to
the pending list and hands nothing to the engine. -/
theorem qbuf_idle (eng : Engine) (cam : V4L2Camera) (index : Nat)
    (hidle : cam.isRunning_ = false) (hret : (cam.qbuf eng index).1 = 0) :
    ∃ request, (buildRequest eng cam.camera_ index).1 = some request ∧
      cam.qbuf eng index =
        (0, { cam with camera_ := (buildRequest eng cam.camera_ index).2,
                       pendingRequests_ := cam.pendingRequests_ ++ [some request] }) := by
  unfold V4L2Camera.qbuf at hret ⊢
  rcases hb : buildRequest eng cam.camera_ index with ⟨_ | request, calls⟩
  · rw [hb] at hret
    simp [ENOMEM] at hret
  · exact ⟨request, rfl, by simp [hidle]⟩

/-- `qbuf` on a running session hands the request it built, and nothing
else, to the engine and leaves the session state alone; when no request
could be built it fails and hands nothing over. -/
theorem qbuf_running (eng : Engine) (cam : V4L2Camera) (index : Nat)
    (hrun : cam.isRunning_ = true) :
    (cam.qbuf eng index).2.isRunning_ = true ∧
      (cam.qbuf eng index).2.pendingRequests_ = cam.pendingRequests_ ∧
      ((buildRequest eng cam.camera_ index).1 = none →
        (cam.qbuf eng index).1 ≠ 0 ∧
        submitted (cam.qbuf eng index).2.camera_ = submitted cam.camera_) ∧
      (∀ request, (buildRequest eng cam.camera_ index).1 = some request →
        submitted (cam.qbuf eng index).2.camera_ =
          submitted cam.camera_ ++ [some request]) := by
  unfold V4L2Camera.qbuf
  have hs := buildRequest_submitted eng cam.camera_ index
  rcases hb : buildRequest eng cam.camera_ index with ⟨_ | request, calls⟩
  · rw [hb] at hs
    refine ⟨hrun, rfl, fun _ => ⟨by simp [ENOMEM], by simpa using hs⟩, ?_⟩
    intro request h
    simp at h
  · rw [hb] at hs
    simp only at hs
    refine ⟨?_, ?_, fun h => by simp at h, ?_⟩
    · by_cases hq : eng.queueRequest calls (some request) < 0 <;> simp [hrun, hq]
    · by_cases hq : eng.queueRequest calls (some request) < 0 <;> simp [hrun, hq]
    · intro request' h
      have hr : request = request' := by simpa using h
      subst hr
      by_cases hq : eng.queueRequest calls (some request) < 0 <;>
        simp [hrun, hq, submitted_append, submitted, hs]

theorem qbufAll_idle (eng : Engine) (indices : List Nat) :
    ∀ cam : V4L2Camera, cam.isRunning_ = false →
      (∀ r ∈ (qbufAll eng cam indices).1, r = 0) →
      (qbufAll eng cam indices).2.isRunning_ = false ∧
      submitted (qbufAll eng cam indices).2.camera_ = submitted cam.camera_ ∧
      ∃ requests : List Request,
        List.Forall₂
          (fun index request => ∃ calls, (buildRequest eng calls index).1 = some request)
          indices requests ∧
        (qbufAll eng cam indices).2.pendingRequests_ =
          cam.pendingRequests_ ++ requests.map some := by
  induction indices with
  | nil => intro cam hidle _; exact ⟨hidle, rfl, [], List.Forall₂.nil, by simp [qbufAll]⟩
  | cons i is ih =>
    intro cam hidle hrets
    have h0 : (cam.qbuf eng i).1 = 0 := hrets _ (by simp [qbufAll])
    obtain ⟨request, hbuild, hq⟩ := qbuf_idle eng cam i hidle h0
    have hidle' : (cam.qbuf eng i).2.isRunning_ = false := by rw [hq]; exact hidle
    have hrets' : ∀ r ∈ (qbufAll eng (cam.qbuf eng i).2 is).1, r = 0 :=
      fun r hr => hrets r (by simp [qbufAll, hr])
    obtain ⟨h1, h2, requests, h3, h4⟩ := ih _ hidle' hrets'
    have hstep : (qbufAll eng cam (i :: is)).2 = (qbufAll eng (cam.qbuf eng i).2 is).2 := rfl
    rw [hstep]
    refine ⟨h1, ?_, request :: requests, List.Forall₂.cons ⟨_, hbuild⟩ h3, ?_⟩
    · rw [h2, hq]
      exact buildRequest_submitted eng cam.camera_ i
    · rw [h4, hq]
      simp [List.append_assoc]

theorem qbufAll_running (eng : Engine) (indices : List Nat) :
    ∀ cam : V4L2Camera, cam.isRunning_ = true →
      (qbufAll eng cam indices).2.isRunning_ = true ∧
      (qbufAll eng cam indices).2.pendingRequests_ = cam.pendingRequests_ ∧
      ∃ requests : List Request,
        submitted (qbufAll eng cam indices).2.camera_ =
          submitted cam.camera_ ++ requests.map some ∧
        (∀ r ∈ requests, ∃ index ∈ indices, ∃ calls,
          (buildRequest eng calls index).1 = some r) ∧
        requests.length ≤ indices.length ∧
        ((∀ r ∈ (qbufAll eng cam indices).1, r = 0) →
          List.Forall₂
            (fun index request => ∃ calls, (buildRequest eng calls index).1 = some request)
            indices requests) := by
  induction indices with
  | nil =>
    intro cam hrun
    exact ⟨hrun, rfl, [], by simp [qbufAll], by simp, by simp, fun _ => List.Forall₂.nil⟩
  | cons i is ih =>
    intro cam hrun
    obtain ⟨hrun', hpend, hnone, hsome⟩ := qbuf_running eng cam i hrun
    obtain ⟨h1, h2, requests, hsub, hmem, hlen, hall⟩ := ih _ hrun'
    have hstep : (qbufAll eng cam (i :: is)).2 = (qbufAll eng (cam.qbuf eng i).2 is).2 := rfl
    rw [hstep]
    cases hb : (buildRequest eng cam.camera_ i).1 with
    | none =>
      refine ⟨h1, by rw [h2, hpend], requests, by rw [hsub, (hnone hb).2], ?_,
        by simp only [List.length_cons]; omega, ?_⟩
      · intro r hr
        obtain ⟨index, hi, calls, hc⟩ := hmem r hr
        exact ⟨index, List.mem_cons_of_mem _ hi, calls, hc⟩
      · intro hrets
        exact absurd (hrets _ (by simp [qbufAll])) (hnone hb).1
    | some request =>
      refine ⟨h1, by rw [h2, hpend], request :: requests, ?_, ?_,
        by simp only [List.length_cons]; omega, ?_⟩
      · rw [hsub, hsome request hb]
        simp [List.append_assoc]
      · intro r hr
        rcases List.mem_cons.mp hr with hr | hr
        · exact ⟨i, List.mem_cons_self _ _, cam.camera_, by rw [hr]; exact hb⟩
        · obtain ⟨index, hi, calls, hc⟩ := hmem r hr
          exact ⟨index, List.mem_cons_of_mem _ hi, calls, hc⟩
      · intro hrets
        have hrets' : ∀ r ∈ (qbufAll eng (cam.qbuf eng i).2 is).1, r = 0 :=
          fun r hr => hrets r (by simp [qbufAll, hr])
        exact List.Forall₂.cons ⟨_, hb⟩ (hall hrets')

/-- C3: requests submitted with `qbuf()` while the session is idle, each call
returning 0, are appended to the pending list, one request built per index in
submission order, and none is handed to the engine.  A following `streamOn()`
whose engine start and whose every `queueRequest` are accepted returns 0,
hands exactly the pending requests to the engine, once each and in order,
leaves the pending list empty and the session running.  A `qbuf()` after
that hands the request it built to the engine behind all of those; and
whatever `qbuf()` calls follow, what the engine has received is those pending
requests followed by the requests these calls built, in call order and
nothing else, one per call when they all return 0. -/
theorem qbuf_idle_then_streamOn (eng : Engine) (cam camQ camS : V4L2Camera)
    (indices : List Nat) (rets : List Int) (ret : Int)
    (hidle : cam.isRunning_ = false)
    (hqbuf : qbufAll eng cam indices = (rets, camQ))
    (hrets : ∀ r ∈ rets, r = 0)
    (hstreamOn : camQ.streamOn eng = (ret, camS))
    (hstart : 0 ≤ eng.start camQ.camera_)
    (hflush : ∀ k, k < camQ.pendingRequests_.length →
      0 ≤ flushAnswer eng (camQ.camera_ ++ [CameraCall.start]) camQ.pendingRequests_ k) :
    submitted camQ.camera_ = submitted cam.camera_ ∧
    (∃ requests : List Request,
      List.Forall₂
        (fun index request => ∃ calls, (buildRequest eng calls index).1 = some request)
        indices requests ∧
      camQ.pendingRequests_ = cam.pendingRequests_ ++ requests.map some) ∧
    ret = 0 ∧
    submitted camS.camera_ = submitted cam.camera_ ++ camQ.pendingRequests_ ∧
    camS.pendingRequests_ = [] ∧
    camS.isRunning_ = true ∧
    (∀ (index : Nat) (request : Request),
      (buildRequest eng camS.camera_ index).1 = some request →
      submitted (camS.qbuf eng index).2.camera_ =
        submitted cam.camera_ ++ camQ.pendingRequests_ ++ [some request]) ∧
    ∀ later : List Nat, ∃ requests : List Request,
      submitted (qbufAll eng camS later).2.camera_ =
        submitted cam.camera_ ++ camQ.pendingRequests_ ++ requests.map some ∧
      (∀ r ∈ requests, ∃ index ∈ later, ∃ calls,
        (buildRequest eng calls index).1 = some r) ∧
      requests.length ≤ later.length ∧
      ((∀ r ∈ (qbufAll eng camS later).1, r = 0) →
        List.Forall₂
          (fun index request => ∃ calls, (buildRequest eng calls index).1 = some request)
          later requests) := by
  have hQ : (qbufAll eng cam indices).2 = camQ := by rw [hqbuf]
  have hR : (qbufAll eng cam indices).1 = rets := by rw [hqbuf]
  obtain ⟨hidleQ, hsubQ, hreq⟩ := qbufAll_idle eng indices cam hidle (by rw [hR]; exact hrets)
  rw [hQ] at hidleQ hsubQ hreq
  have hS := streamOn_accepted eng camQ hidleQ hstart hflush
  rw [hstreamOn] at hS
  have hret : ret = 0 := congrArg Prod.fst hS
  have hcam := congrArg Prod.snd hS
  simp only at hcam
  have hsubS : submitted camS.camera_ = submitted cam.camera_ ++ camQ.pendingRequests_ := by
    rw [hcam]
    simp [submitted_append, submitted, submitted_map_queueRequest, hsubQ]
  have hrunS : camS.isRunning_ = true := by rw [hcam]
  refine ⟨hsubQ, hreq, hret, hsubS, by rw [hcam], hrunS, ?_, ?_⟩
  · intro index request hb
    rw [(qbuf_running eng camS index hrunS).2.2.2 request hb, hsubS]
  · intro later
    obtain ⟨_, _, requests, hsub, hmem, hlen, hall⟩ := qbufAll_running eng later camS hrunS
    exact ⟨requests, by rw [hsub, hsubS], hmem, hlen, hall⟩

/-- C6: after a `streamOn()` that returned 0, an immediately following
`streamOn()` returns 0 and leaves the whole state as it was: no call is made
on the engine (the call log is the same, so neither `start` nor
`queueRequest` is called), and the running flag and the pending list are
unchanged. -/
theorem streamOn_twice (eng : Engine) (cam : V4L2Camera)
    (hfirst : (cam.streamOn eng).1 = 0) :
    (cam.streamOn eng).2.streamOn eng = (0, (cam.streamOn eng).2) ∧
    ((cam.streamOn eng).2.streamOn eng).2.camera_ = (cam.streamOn eng).2.camera_ ∧
    ((cam.streamOn eng).2.streamOn eng).2.isRunning_ = (cam.streamOn eng).2.isRunning_ ∧
    ((cam.streamOn eng).2.streamOn eng).2.pendingRequests_ =
      (cam.streamOn eng).2.pendingRequests_ := by
  have h := streamOn_running eng _ (streamOn_zero_running eng cam hfirst)
  rw [h]
  exact ⟨rfl, rfl, rfl, rfl⟩

/-- C9 fails: on a session holding two pending requests, with an engine that
starts and then rejects the first flushed request with `-EINVAL`, `streamOn()`
returns `-EINVAL` and the session is marked running all the same, so that the
next `streamOn()` returns 0 without calling the engine. -/
theorem streamOn_rejected_flush_is_running :
    (qbufAll rejecting opened [0, 1]).1 = [0, 0] ∧
    (qbufAll rejecting opened [0, 1]).2.isRunning_ = false ∧
    (qbufAll rejecting opened [0, 1]).2.pendingRequests_ =
      [some (builtRequest 1 0), some (builtRequest 3 1)] ∧
    0 ≤ rejecting.start (qbufAll rejecting opened [0, 1]).2.camera_ ∧
    ((qbufAll rejecting opened [0, 1]).2.streamOn rejecting).1 = -EINVAL ∧
    ((qbufAll rejecting opened [0, 1]).2.streamOn rejecting).2.isRunning_ = true ∧
    (((qbufAll rejecting opened [0, 1]).2.streamOn rejecting).2.streamOn rejecting).1 = 0 ∧
    (((qbufAll rejecting opened [0, 1]).2.streamOn rejecting).2.streamOn rejecting).2.camera_ =
      ((qbufAll rejecting opened [0, 1]).2.streamOn rejecting).2.camera_ := by
  decide

/-- C10 fails: on a session holding two pending requests, with an engine
that starts and then rejects the first flushed request with `-EINVAL`,
`streamOn()` returns `-EINVAL` after one `queueRequest`, and the second
request is still held in the pending list after the call, behind the null
entry left by the first.  It is not dropped for good either: the engine
accepting everything else, the null entry included, a `streamOff()` and a
`streamOn()` later hand the second request to the engine. -/
theorem streamOn_rejected_flush_keeps_later :
    (qbufAll rejectingOne opened [0, 1]).2.pendingRequests_ =
      [some (builtRequest 1 0), some (builtRequest 3 1)] ∧
    ((qbufAll rejectingOne opened [0, 1]).2.streamOn rejectingOne).1 = -EINVAL ∧
    submitted ((qbufAll rejectingOne opened [0, 1]).2.streamOn rejectingOne).2.camera_ =
      [some (builtRequest 1 0)] ∧
    ((qbufAll rejectingOne opened [0, 1]).2.streamOn rejectingOne).2.pendingRequests_ =
      [none, some (builtRequest 3 1)] ∧
    some (builtRequest 3 1) ∈
      ((qbufAll rejectingOne opened [0, 1]).2.streamOn rejectingOne).2.pendingRequests_ ∧
    submitted
        (runSessionCalls rejectingOne
          ((qbufAll rejectingOne opened [0, 1]).2.streamOn rejectingOne).2
          [SessionCall.streamOff, SessionCall.streamOn]).camera_ =
      [some (builtRequest 1 0), none, some (builtRequest 3 1)] := by
  decide

/-- C9, amended: `streamOn()` on an idle session whose engine start is
accepted marks the session running whatever the flush does.  When every
flushed request is accepted it returns 0, has handed the pending requests to
the engine in list order and has cleared the pending list.  When the `k`-th
pending request is the first one rejected it returns that failure (`-EACCES`
as `-EBUSY`), a negative code, and the following `streamOn()` returns 0 and
changes nothing. -/
theorem streamOn_idle_marks_running (eng : Engine) (cam : V4L2Camera)
    (hidle : cam.isRunning_ = false) (hstart : 0 ≤ eng.start cam.camera_) :
    (cam.streamOn eng).2.isRunning_ = true ∧
    ((∀ k, k < cam.pendingRequests_.length →
        0 ≤ flushAnswer eng (cam.camera_ ++ [CameraCall.start]) cam.pendingRequests_ k) →
      (cam.streamOn eng).1 = 0 ∧
      submitted (cam.streamOn eng).2.camera_ =
        submitted cam.camera_ ++ cam.pendingRequests_ ∧
      (cam.streamOn eng).2.pendingRequests_ = []) ∧
    (∀ k, k < cam.pendingRequests_.length →
      (∀ j, j < k →
        0 ≤ flushAnswer eng (cam.camera_ ++ [CameraCall.start]) cam.pendingRequests_ j) →
      flushAnswer eng (cam.camera_ ++ [CameraCall.start]) cam.pendingRequests_ k < 0 →
      (cam.streamOn eng).1 =
        busyOr (flushAnswer eng (cam.camera_ ++ [CameraCall.start]) cam.pendingRequests_ k) ∧
      (cam.streamOn eng).1 < 0 ∧
      (cam.streamOn eng).2.streamOn eng = (0, (cam.streamOn eng).2)) := by
  refine ⟨?_, ?_, ?_⟩
  · unfold V4L2Camera.streamOn
    simp only [hidle, not_lt.mpr hstart]
    cases hf : (flushPending eng (cam.camera_ ++ [CameraCall.start])
        cam.pendingRequests_).1 with
    | none => simp
    | some err => simp
  · intro hflush
    rw [streamOn_accepted eng cam hidle hstart hflush]
    simp [submitted_append, submitted, submitted_map_queueRequest]
  · intro k hk hacc hrej
    rw [streamOn_rejected eng cam k hidle hstart hk hacc hrej]
    exact ⟨rfl, busyOr_neg hrej, streamOn_running eng _ rfl⟩

/-- `streamOff` on a running session whose engine stop is accepted. -/
theorem streamOff_accepted (eng : Engine) (cam : V4L2Camera)
    (hrun : cam.isRunning_ = true) (hstop : 0 ≤ eng.stop cam.camera_) :
    cam.streamOff eng =
      (0, { cam with isRunning_ := false,
                     camera_ := cam.camera_ ++ [CameraCall.stop] }) := by
  simp [V4L2Camera.streamOff, hrun, not_lt.mpr hstop]

theorem notFromPending_mono (eng : Engine) {calls calls' : List SessionCall}
    (h : ∀ c ∈ calls, c ∈ calls') {x : Option Request}
    (hx : NotFromPending eng calls x) : NotFromPending eng calls' x := by
  rcases hx with hx | ⟨index, request, log, hmem, hx, hb⟩
  · exact Or.inl hx
  · exact Or.inr ⟨index, request, log, h _ hmem, hx, hb⟩

/-- With an engine that rejects a null request, one call on a session whose
pending list starts with a null entry keeps the whole list, and hands to the
engine nothing that the list holds. -/
theorem sessionCall_keeps (eng : Engine) (hnull : ∀ calls, eng.queueRequest calls none < 0)
    (cam : V4L2Camera) (rest : List (Option Request))
    (hp : cam.pendingRequests_ = none :: rest) (call : SessionCall) :
    ∃ appended more,
      (call.run eng cam).pendingRequests_ = cam.pendingRequests_ ++ appended ∧
      submitted (call.run eng cam).camera_ = submitted cam.camera_ ++ more ∧
      ∀ x ∈ more, NotFromPending eng [call] x := by
  cases call with
  | streamOn =>
    by_cases hrun : cam.isRunning_ = true
    · exact ⟨[], [], by simp [SessionCall.run, V4L2Camera.streamOn, hrun],
        by simp [SessionCall.run, V4L2Camera.streamOn, hrun], by simp⟩
    · by_cases hs : eng.start cam.camera_ < 0
      · exact ⟨[], [], by simp [SessionCall.run, V4L2Camera.streamOn, hrun, hs],
          by simp [SessionCall.run, V4L2Camera.streamOn, hrun, hs, submitted_append,
            submitted], by simp⟩
      · refine ⟨[], [none], ?_, ?_, ?_⟩
        · simp [SessionCall.run, V4L2Camera.streamOn, hrun, hs, hp, flushPending, hnull]
        · simp [SessionCall.run, V4L2Camera.streamOn, hrun, hs, hp, flushPending, hnull,
            submitted_append, submitted]
        · intro x hx
          exact Or.inl (by simpa using hx)
  | streamOff =>
    by_cases hrun : cam.isRunning_ = true
    · by_cases hs : eng.stop cam.camera_ < 0
      · exact ⟨[], [], by simp [SessionCall.run, V4L2Camera.streamOff, hrun, hs],
          by simp [SessionCall.run, V4L2Camera.streamOff, hrun, hs, submitted_append,
            submitted], by simp⟩
      · exact ⟨[], [], by simp [SessionCall.run, V4L2Camera.streamOff, hrun, hs],
          by simp [SessionCall.run, V4L2Camera.streamOff, hrun, hs, submitted_append,
            submitted], by simp⟩
    · exact ⟨[], [], by simp [SessionCall.run, V4L2Camera.streamOff, hrun],
        by simp [SessionCall.run, V4L2Camera.streamOff, hrun], by simp⟩
  | qbuf index =>
    have hs := buildRequest_submitted eng cam.camera_ index
    rcases hb : buildRequest eng cam.camera_ index with ⟨_ | request, log⟩
    · rw [hb] at hs
      exact ⟨[], [], by simp [SessionCall.run, V4L2Camera.qbuf, hb],
        by simpa [SessionCall.run, V4L2Camera.qbuf, hb] using hs, by simp⟩
    · rw [hb] at hs
      simp only at hs
      by_cases hrun : cam.isRunning_ = true
      · refine ⟨[], [some request], ?_, ?_, ?_⟩
        · by_cases hq : eng.queueRequest log (some request) < 0 <;>
            simp [SessionCall.run, V4L2Camera.qbuf, hb, hrun, hq]
        · by_cases hq : eng.queueRequest log (some request) < 0 <;>
            simp [SessionCall.run, V4L2Camera.qbuf, hb, hrun, hq, submitted_append,
              submitted, hs]
        · intro x hx
          refine Or.inr ⟨index, request, cam.camera_, by simp, by simpa using hx, ?_⟩
          rw [hb]
      · exact ⟨[some request], [], by simp [SessionCall.run, V4L2Camera.qbuf, hb, hrun],
          by simp [SessionCall.run, V4L2Camera.qbuf, hb, hrun, hs], by simp⟩

/-- With an engine that rejects a null request, no sequence of calls on a
session whose pending list starts with a null entry takes anything out of
the list or hands anything it holds to the engine. -/
theorem runSessionCalls_keeps (eng : Engine)
    (hnull : ∀ calls, eng.queueRequest calls none < 0) (calls : List SessionCall) :
    ∀ (cam : V4L2Camera) (rest : List (Option Request)),
      cam.pendingRequests_ = none :: rest →
      ∃ appended more,
        (runSessionCalls eng cam calls).pendingRequests_ =
          cam.pendingRequests_ ++ appended ∧
        submitted (runSessionCalls eng cam calls).camera_ =
          submitted cam.camera_ ++ more ∧
        ∀ x ∈ more, NotFromPending eng calls x := by
  induction calls with
  | nil => intro cam rest _; exact ⟨[], [], by simp [runSessionCalls], by simp [runSessionCalls],
      by simp⟩
  | cons c cs ih =>
    intro cam rest hp
    obtain ⟨app1, more1, hp1, hs1, hn1⟩ := sessionCall_keeps eng hnull cam rest hp c
    have hp1' : (c.run eng cam).pendingRequests_ = none :: (rest ++ app1) := by
      rw [hp1, hp]; rfl
    obtain ⟨app2, more2, hp2, hs2, hn2⟩ := ih (c.run eng cam) _ hp1'
    have hstep : runSessionCalls eng cam (c :: cs) = runSessionCalls eng (c.run eng cam) cs :=
      rfl
    rw [hstep]
    refine ⟨app1 ++ app2, more1 ++ more2, ?_, ?_, ?_⟩
    · rw [hp2, hp1, List.append_assoc]
    · rw [hs2, hs1, List.append_assoc]
    · intro x hx
      rcases List.mem_append.mp hx with hx | hx
      · exact notFromPending_mono eng (fun d hd => by
          rw [List.mem_singleton.mp hd]; exact List.mem_cons_self _ _) (hn1 x hx)
      · exact notFromPending_mono eng (fun d hd => List.mem_cons_of_mem _ hd) (hn2 x hx)

/-- C10, amended: when the `k`-th pending request is the first one the
engine rejects during the flush, `streamOn()` returns that failure (`-EACCES`
as `-EBUSY`) having called `start` and `queueRequest` for the first `k + 1`
entries only, so no request after the `k`-th is handed over by that call.
The pending list is not cleared: its first `k + 1` entries are left null and
the requests after the `k`-th are still held in it.  The session is marked
running, and the following `streamOn()` returns 0 and changes nothing.  With
an engine that rejects a null request, no later sequence of `streamOn()`,
`streamOff()` and `qbuf()` calls hands any of them to the engine: they stay
in the pending list where they were, and every request the engine receives
later is a null pointer or the request a `qbuf()` of that sequence built.
With an engine that accepts the null entries, a `streamOff()` and a
`streamOn()` that are accepted throughout hand the list over again, the null
entries first and the requests after the `k`-th behind them, and clear it. -/
theorem streamOn_rejected_keeps_pending (eng : Engine) (cam : V4L2Camera) (k : Nat)
    (hidle : cam.isRunning_ = false) (hstart : 0 ≤ eng.start cam.camera_)
    (hk : k < cam.pendingRequests_.length)
    (hacc : ∀ j, j < k →
      0 ≤ flushAnswer eng (cam.camera_ ++ [CameraCall.start]) cam.pendingRequests_ j)
    (hrej : flushAnswer eng (cam.camera_ ++ [CameraCall.start]) cam.pendingRequests_ k < 0) :
    (cam.streamOn eng).1 =
      busyOr (flushAnswer eng (cam.camera_ ++ [CameraCall.start]) cam.pendingRequests_ k) ∧
    (cam.streamOn eng).2.camera_ =
      cam.camera_ ++ [CameraCall.start] ++
        (cam.pendingRequests_.take (k + 1)).map CameraCall.queueRequest ∧
    submitted (cam.streamOn eng).2.camera_ =
      submitted cam.camera_ ++ cam.pendingRequests_.take (k + 1) ∧
    (cam.streamOn eng).2.pendingRequests_ =
      List.replicate (k + 1) none ++ cam.pendingRequests_.drop (k + 1) ∧
    (cam.streamOn eng).2.isRunning_ = true ∧
    (cam.streamOn eng).2.streamOn eng = (0, (cam.streamOn eng).2) ∧
    ((∀ calls, eng.queueRequest calls none < 0) →
      ∀ later : List SessionCall, ∃ appended more,
        (runSessionCalls eng (cam.streamOn eng).2 later).pendingRequests_ =
          List.replicate (k + 1) none ++ cam.pendingRequests_.drop (k + 1) ++ appended ∧
        submitted (runSessionCalls eng (cam.streamOn eng).2 later).camera_ =
          submitted cam.camera_ ++ cam.pendingRequests_.take (k + 1) ++ more ∧
        ∀ x ∈ more, NotFromPending eng later x) ∧
    (0 ≤ eng.stop (cam.streamOn eng).2.camera_ →
      0 ≤ eng.start ((cam.streamOn eng).2.streamOff eng).2.camera_ →
      (∀ j, j < ((cam.streamOn eng).2.streamOff eng).2.pendingRequests_.length →
        0 ≤ flushAnswer eng
          (((cam.streamOn eng).2.streamOff eng).2.camera_ ++ [CameraCall.start])
          ((cam.streamOn eng).2.streamOff eng).2.pendingRequests_ j) →
      (((cam.streamOn eng).2.streamOff eng).2.streamOn eng).1 = 0 ∧
      submitted (((cam.streamOn eng).2.streamOff eng).2.streamOn eng).2.camera_ =
        submitted cam.camera_ ++ cam.pendingRequests_.take (k + 1) ++
          (List.replicate (k + 1) none ++ cam.pendingRequests_.drop (k + 1)) ∧
      (((cam.streamOn eng).2.streamOff eng).2.streamOn eng).2.pendingRequests_ = []) := by
  have hS := streamOn_rejected eng cam k hidle hstart hk hacc hrej
  have hcam : (cam.streamOn eng).2.camera_ =
      cam.camera_ ++ [CameraCall.start] ++
        (cam.pendingRequests_.take (k + 1)).map CameraCall.queueRequest := by rw [hS]
  have hsub : submitted (cam.streamOn eng).2.camera_ =
      submitted cam.camera_ ++ cam.pendingRequests_.take (k + 1) := by
    rw [hcam]
    simp only [submitted_append, submitted, submitted_map_queueRequest, List.append_nil]
  have hpend : (cam.streamOn eng).2.pendingRequests_ =
      List.replicate (k + 1) none ++ cam.pendingRequests_.drop (k + 1) := by rw [hS]
  have hrun : (cam.streamOn eng).2.isRunning_ = true := by rw [hS]
  refine ⟨by rw [hS], hcam, hsub, hpend, hrun, streamOn_running eng _ hrun, ?_, ?_⟩
  · intro hnull later
    have hhead : (cam.streamOn eng).2.pendingRequests_ =
        none :: (List.replicate k none ++ cam.pendingRequests_.drop (k + 1)) := by
      rw [hpend, List.replicate_succ]; rfl
    obtain ⟨appended, more, h1, h2, h3⟩ :=
      runSessionCalls_keeps eng hnull later (cam.streamOn eng).2 _ hhead
    exact ⟨appended, more, by rw [h1, hpend], by rw [h2, hsub], h3⟩
  · intro hstop hstart2 hflush2
    have hoff := streamOff_accepted eng (cam.streamOn eng).2 hrun hstop
    have hidle2 : ((cam.streamOn eng).2.streamOff eng).2.isRunning_ = false := by rw [hoff]
    have hpend2 : ((cam.streamOn eng).2.streamOff eng).2.pendingRequests_ =
        (cam.streamOn eng).2.pendingRequests_ := by rw [hoff]
    have hsub2 : submitted ((cam.streamOn eng).2.streamOff eng).2.camera_ =
        submitted (cam.streamOn eng).2.camera_ := by
      rw [hoff]; simp [submitted_append, submitted]
    rw [streamOn_accepted eng _ hidle2 hstart2 hflush2]
    refine ⟨rfl, ?_, rfl⟩
    simp only [submitted_append, submitted, submitted_map_queueRequest, List.append_nil]
    rw [hsub2, hsub, hpend2, hpend]

theorem translated_busyOr (ret : Int) : Translated ret (busyOr ret) := by
  unfold Translated busyOr
  constructor
  · intro h; simp [h]
  · intro h; simp [h]

/-- C5: `allocBuffers()`, `streamOn()` (for the engine start and for the
first rejected `queueRequest` of the flush), `streamOff()` and `qbuf()` on a
running session hand an engine result of `-EACCES` to the caller as `-EBUSY`
and every other engine failure code unchanged; `configure()` returns
`-EINVAL` for a configuration the validation reports as `Invalid`, and
`-EBUSY` is not `-EINVAL`. -/
theorem busy_translation (eng : Engine) :
    (∀ (cam : V4L2Camera) (count : Nat),
      Translated (eng.allocateBuffers cam.camera_) (cam.allocBuffers eng count).1) ∧
    (∀ cam : V4L2Camera, cam.isRunning_ = false → eng.start cam.camera_ < 0 →
      Translated (eng.start cam.camera_) (cam.streamOn eng).1) ∧
    (∀ (cam : V4L2Camera) (k : Nat), cam.isRunning_ = false → 0 ≤ eng.start cam.camera_ →
      k < cam.pendingRequests_.length →
      (∀ j, j < k →
        0 ≤ flushAnswer eng (cam.camera_ ++ [CameraCall.start]) cam.pendingRequests_ j) →
      flushAnswer eng (cam.camera_ ++ [CameraCall.start]) cam.pendingRequests_ k < 0 →
      Translated
        (flushAnswer eng (cam.camera_ ++ [CameraCall.start]) cam.pendingRequests_ k)
        (cam.streamOn eng).1) ∧
    (∀ cam : V4L2Camera, cam.isRunning_ = true → eng.stop cam.camera_ < 0 →
      Translated (eng.stop cam.camera_) (cam.streamOff eng).1) ∧
    (∀ (cam : V4L2Camera) (index : Nat) (request : Request) (calls : List CameraCall),
      cam.isRunning_ = true → buildRequest eng cam.camera_ index = (some request, calls) →
      eng.queueRequest calls (some request) < 0 →
      Translated (eng.queueRequest calls (some request)) (cam.qbuf eng index).1) ∧
    (∀ (cam : V4L2Camera) (size : Size) (pixelformat bufferCount : Nat),
      (eng.validate (cam.requested size pixelformat bufferCount)).1 = ConfigStatus.Invalid →
      (cam.configure eng size pixelformat bufferCount).ret = -EINVAL) ∧
    -EBUSY ≠ -EINVAL := by
  refine ⟨?_, ?_, ?_, ?_, ?_, ?_, by decide⟩
  · intro cam count
    exact translated_busyOr _
  · intro cam hidle hneg
    have : (cam.streamOn eng).1 = busyOr (eng.start cam.camera_) := by
      simp [V4L2Camera.streamOn, hidle, hneg]
    rw [this]; exact translated_busyOr _
  · intro cam k hidle hstart hk hacc hrej
    rw [streamOn_rejected eng cam k hidle hstart hk hacc hrej]
    exact translated_busyOr _
  · intro cam hrun hneg
    have : (cam.streamOff eng).1 = busyOr (eng.stop cam.camera_) := by
      simp [V4L2Camera.streamOff, hrun, hneg]
    rw [this]; exact translated_busyOr _
  · intro cam index request calls hrun hbuild hneg
    have : (cam.qbuf eng index).1 = busyOr (eng.queueRequest calls (some request)) := by
      simp [V4L2Camera.qbuf, hbuild, hrun, hneg]
    rw [this]; exact translated_busyOr _
  · intro cam size pixelformat bufferCount hinv
    simp [V4L2Camera.configure, hinv]

/-! ## Configuration -/

/-- C4 fails: the stored configuration is overwritten before validation.  On
a session holding a 640x480 configuration, `configure()` with a zero size,
which the validation reports as `Invalid`, returns `-EINVAL` without calling
the engine, and `getStreamConfig()` then reads back the zero size, not the
640x480 configuration read back before. -/
theorem configure_invalid_overwrites :
    (acceptAll.validate (opened.requested { width := 0, height := 0 } 0 0)).1 =
      ConfigStatus.Invalid ∧
    (opened.configure acceptAll { width := 0, height := 0 } 0 0).ret = -EINVAL ∧
    (opened.configure acceptAll { width := 0, height := 0 } 0 0).cam.camera_ = [] ∧
    opened.getStreamConfig =
      { size := { width := 640, height := 480 }, pixelFormat := 1, bufferCount := 4 } ∧
    (opened.configure acceptAll { width := 0, height := 0 } 0 0).cam.getStreamConfig =
      { size := { width := 0, height := 0 }, pixelFormat := 0, bufferCount := 0 } ∧
    (opened.configure acceptAll { width := 0, height := 0 } 0 0).cam.getStreamConfig ≠
      opened.getStreamConfig := by
  decide

/-- C4, amended: for a requested size, pixel format and buffer count that the
validation reports as `Invalid`, `configure()` returns `-EINVAL`, writes
nothing through its output parameter and makes no call on the engine, so no
configuration is pushed; the rest of the session is untouched, and the stored
configuration read back by `getStreamConfig()` is the requested one as the
validation left it: the requested size, pixel format and buffer count
themselves when the validation rewrote nothing. -/
theorem configure_invalid (eng : Engine) (cam : V4L2Camera) (size : Size)
    (pixelformat bufferCount : Nat)
    (hinvalid : (eng.validate (cam.requested size pixelformat bufferCount)).1 =
      ConfigStatus.Invalid) :
    (cam.configure eng size pixelformat bufferCount).ret = -EINVAL ∧
    (cam.configure eng size pixelformat bufferCount).streamConfigOut = none ∧
    (cam.configure eng size pixelformat bufferCount).cam.camera_ = cam.camera_ ∧
    (cam.configure eng size pixelformat bufferCount).cam =
      { cam with config_ := (eng.validate (cam.requested size pixelformat bufferCount)).2 } ∧
    (cam.configure eng size pixelformat bufferCount).cam.getStreamConfig =
      (eng.validate (cam.requested size pixelformat bufferCount)).2.at0 ∧
    ((eng.validate (cam.requested size pixelformat bufferCount)).2 =
        cam.requested size pixelformat bufferCount →
      (cam.configure eng size pixelformat bufferCount).cam.getStreamConfig =
        { size := size, pixelFormat := pixelformat, bufferCount := bufferCount }) := by
  refine ⟨?_, ?_, ?_, ?_, ?_, ?_⟩ <;>
    simp [V4L2Camera.configure, V4L2Camera.getStreamConfig, hinvalid]
  intro h
  rw [h]
  rfl

/-- C7: for a requested size, pixel format and buffer count that the
validation reports as `Adjusted` and that the engine accepts when pushed,
`configure()` returns 0 after one `configure` call on the engine with the
adjusted configuration, and the value written through its output parameter
is the stored configuration at return, which is the adjusted configuration
as the engine handed it back: the configuration after validation whenever
the push leaves it as it is, and not the requested values where the
validation changed them. -/
theorem configure_adjusted (eng : Engine) (cam : V4L2Camera) (size : Size)
    (pixelformat bufferCount : Nat)
    (hadjusted : (eng.validate (cam.requested size pixelformat bufferCount)).1 =
      ConfigStatus.Adjusted)
    (haccepted : 0 ≤ (eng.configure cam.camera_
      (eng.validate (cam.requested size pixelformat bufferCount)).2).1) :
    (cam.configure eng size pixelformat bufferCount).ret = 0 ∧
    (cam.configure eng size pixelformat bufferCount).cam.camera_ =
      cam.camera_ ++
        [CameraCall.configure (eng.validate (cam.requested size pixelformat bufferCount)).2] ∧
    (cam.configure eng size pixelformat bufferCount).streamConfigOut =
      some (cam.configure eng size pixelformat bufferCount).cam.getStreamConfig ∧
    (cam.configure eng size pixelformat bufferCount).cam.config_ =
      (eng.configure cam.camera_
        (eng.validate (cam.requested size pixelformat bufferCount)).2).2 ∧
    ((eng.configure cam.camera_
        (eng.validate (cam.requested size pixelformat bufferCount)).2).2 =
        (eng.validate (cam.requested size pixelformat bufferCount)).2 →
      (cam.configure eng size pixelformat bufferCount).streamConfigOut =
        some (eng.validate (cam.requested size pixelformat bufferCount)).2.at0 ∧
      ((eng.validate (cam.requested size pixelformat bufferCount)).2.at0 ≠
          { size := size, pixelFormat := pixelformat, bufferCount := bufferCount } →
        (cam.configure eng size pixelformat bufferCount).streamConfigOut ≠
          some { size := size, pixelFormat := pixelformat, bufferCount := bufferCount })) := by
  have hne : ¬ (eng.validate (cam.requested size pixelformat bufferCount)).1 =
      ConfigStatus.Invalid := by rw [hadjusted]; decide
  refine ⟨?_, ?_, ?_, ?_, ?_⟩ <;>
    simp only [V4L2Camera.configure, V4L2Camera.getStreamConfig, hne, not_lt.mpr haccepted,
      if_false]
  intro h
  rw [h]
  refine ⟨rfl, ?_⟩
  intro hd heq
  exact hd (Option.some.inj heq)

end Libcamera

/-! ## Stream identifiers of the pad -/

namespace Libcamera.Gst

theorem digitValue_digitChar : ∀ d, d < 10 → digitValue (Nat.digitChar d) = d := by
  decide

theorem decimal_digits (n : Nat) :
    Nat.ofDigits 10 (((decimal n).map digitValue).reverse) = n := by
  unfold decimal
  split
  · next h => simp [h, digitValue]
  · have hmap : ((Nat.digits 10 n).reverse.map Nat.digitChar).map digitValue
        = (Nat.digits 10 n).reverse := by
      rw [List.map_map]
      conv_rhs => rw [← List.map_id (Nat.digits 10 n).reverse]
      apply List.map_congr_left
      intro d hd
      exact digitValue_digitChar d
        (Nat.digits_lt_base (by decide) (List.mem_reverse.mp hd))
    rw [hmap, List.reverse_reverse, Nat.ofDigits_digits]

theorem decimal_injective {a b : Nat} (h : decimal a = decimal b) : a = b := by
  rw [← decimal_digits a, ← decimal_digits b, h]

theorem decimal_length_mono {a b : Nat} (h : a ≤ b) :
    (decimal a).length ≤ (decimal b).length := by
  have hpos : ∀ n, 1 ≤ (decimal n).length := by
    intro n
    unfold decimal
    split
    · simp
    · next hn =>
      have : Nat.digits 10 n ≠ [] := Nat.digits_ne_nil_iff_ne_zero.mpr hn
      simp only [List.length_map, List.length_reverse]
      exact List.length_pos.mpr this
  by_cases ha : a = 0
  · rw [ha]; exact hpos b
  · have hb : b ≠ 0 := by omega
    simp only [decimal, ha, hb, if_false, List.length_map, List.length_reverse]
    exact Nat.le_digits_len_le 10 a b h

theorem wrapInt32_of_range {z : Int} (h1 : -2 ^ 31 ≤ z) (h2 : z < 2 ^ 31) :
    wrapInt32 z = z := by
  unfold wrapInt32; omega

/-- With group ids that do not decrease and a counter that increases, the
texts of two announcements differ. -/
theorem stream_id_intermediate_ne {g g' : Nat} {n n' : Int} (hg : g ≤ g')
    (hg' : g' < 2 ^ 31) (hn : 0 ≤ n) (hnn : n < n') :
    stream_id_intermediate g n ≠ stream_id_intermediate g' n' := by
  have hw : wrapInt32 (g : Int) = g := wrapInt32_of_range (by omega) (by omega)
  have hw' : wrapInt32 (g' : Int) = g' := wrapInt32_of_range (by omega) (by omega)
  have hp : ∀ m : Nat, printf_i (m : Int) = decimal m := by
    intro m; simp [printf_i]
  have hq : ∀ z : Int, 0 ≤ z → printf_i z = decimal z.toNat := by
    intro z hz; simp [printf_i, not_lt.mpr hz]
  unfold stream_id_intermediate
  rw [hw, hw', hp, hp, hq n hn, hq n' (by omega)]
  intro heq
  have hlt : n.toNat < n'.toNat := by omega
  have h1 := decimal_length_mono hg
  have h2 := decimal_length_mono (Nat.le_of_lt hlt)
  have hlen := congrArg List.length heq
  simp only [List.length_append] at hlen
  have := (List.append_inj heq (by omega)).2
  have := decimal_injective this
  omega

theorem pushStreamStarts_eq (create : List Char → List Char) (group_ids : List Nat) :
    ∀ self : GstLibcameraPad, 0 ≤ self.stream_id_num →
      self.stream_id_num + group_ids.length < 2 ^ 31 →
      pushStreamStarts create self group_ids =
        { self with
          stream_id_num := self.stream_id_num + group_ids.length,
          parent := { self.parent with
            events := self.parent.events ++
              announced create self.stream_id_num group_ids } } := by
  induction group_ids with
  | nil => intro self _ _; simp [pushStreamStarts, announced]
  | cons g gs ih =>
    intro self h0 hlt
    simp only [List.length_cons, Nat.cast_add, Nat.cast_one] at hlt
    have hw : wrapInt32 (self.stream_id_num + 1) = self.stream_id_num + 1 :=
      wrapInt32_of_range (by omega) (by omega)
    have hstep : pushStreamStarts create self (g :: gs) =
        pushStreamStarts create (gst_libcamera_pad_push_stream_start create self g) gs := rfl
    rw [hstep, ih _ (by simp [gst_libcamera_pad_push_stream_start, hw]; omega)
      (by simp [gst_libcamera_pad_push_stream_start, hw]; omega)]
    simp [gst_libcamera_pad_push_stream_start, hw, announced, List.append_assoc]
    omega

theorem mem_announced (create : List Char → List Char) (group_ids : List Nat) :
    ∀ (num : Int) (e : StreamStart), e ∈ announced create num group_ids →
      ∃ g ∈ group_ids, ∃ n : Int, num < n ∧
        e.stream_id = create (stream_id_intermediate g n) := by
  induction group_ids with
  | nil => intro num e h; simp [announced] at h
  | cons g gs ih =>
    intro num e h
    simp only [announced, List.mem_cons] at h
    rcases h with h | h
    · exact ⟨g, List.mem_cons_self _ _, num + 1, by omega, by rw [h]⟩
    · obtain ⟨g', hg', n, hn, he⟩ := ih (num + 1) e h
      exact ⟨g', List.mem_cons_of_mem _ hg', n, by omega, he⟩

theorem announced_group_id (create : List Char → List Char) (group_ids : List Nat) :
    ∀ num : Int, (announced create num group_ids).map StreamStart.group_id = group_ids := by
  induction group_ids with
  | nil => intro num; rfl
  | cons g gs ih => intro num; simp [announced, ih]

theorem announced_nodup (create : List Char → List Char)
    (hcreate : Function.Injective create) (group_ids : List Nat) :
    ∀ num : Int, 0 ≤ num → (∀ g ∈ group_ids, g < 2 ^ 31) →
      group_ids.Pairwise (fun a b => a ≤ b) →
      ((announced create num group_ids).map StreamStart.stream_id).Nodup := by
  induction group_ids with
  | nil => intro num _ _ _; simp [announced]
  | cons g gs ih =>
    intro num h0 hrange hsorted
    rw [List.pairwise_cons] at hsorted
    simp only [announced, List.map_cons, List.nodup_cons]
    refine ⟨?_, ih (num + 1) (by omega)
      (fun x hx => hrange x (List.mem_cons_of_mem _ hx)) hsorted.2⟩
    intro hmem
    obtain ⟨e, he, heq⟩ := List.mem_map.mp hmem
    obtain ⟨g', hg', n, hn, hid⟩ := mem_announced create gs (num + 1) e he
    rw [hid] at heq
    exact stream_id_intermediate_ne (hsorted.1 g' hg')
      (hrange g' (List.mem_cons_of_mem _ hg')) (by omega : 0 ≤ num + 1) hn
      (hcreate heq).symm

/-- C8 fails: the text is the two decimal numerals written one after the
other with nothing between them.  On a fresh pad, eleven announcements with
group id 11 for the first and group id 1 for the last give the first
announcement (counter 1) and the last (counter 11) the same text `111`, and
with it the same stream identifier. -/
theorem stream_ids_collide :
    stream_id_intermediate 11 1 = ['1', '1', '1'] ∧
    stream_id_intermediate 1 11 = ['1', '1', '1'] ∧
    (pushStreamStarts (fun text => text) (gst_libcamera_pad_init zeroed)
      collidingGroups).stream_id_num = 11 ∧
    (pushStreamStarts (fun text => text) (gst_libcamera_pad_init zeroed)
      collidingGroups).parent.events.head? =
        some { stream_id := ['1', '1', '1'], group_id := 11 } ∧
    (pushStreamStarts (fun text => text) (gst_libcamera_pad_init zeroed)
      collidingGroups).parent.events.getLast? =
        some { stream_id := ['1', '1', '1'], group_id := 1 } ∧
    (pushStreamStarts (fun text => text) (gst_libcamera_pad_init zeroed)
      collidingGroups).parent.events.length = 11 := by
  simp [pushStreamStarts, collidingGroups, gst_libcamera_pad_push_stream_start,
    gst_libcamera_pad_init, zeroed, stream_id_intermediate, printf_i, wrapInt32, decimal,
    Nat.digitChar]

/-- C8, amended: the instance counter of a pad starts at 0 and every
`gst_libcamera_pad_push_stream_start` call increases it by one while it is
below `2^31 - 1`.  For every sequence of fewer than `2^31` calls on a fresh
pad whose group ids are below `2^31` and never decrease from one call to the
next, the counter ends at the number of calls, the events carry the group ids
in call order, and any two calls produce different identifier strings,
provided `gst_pad_create_stream_id` keeps different texts apart. -/
theorem stream_ids_unique (create : List Char → List Char)
    (hcreate : Function.Injective create) (group_ids : List Nat)
    (hcount : group_ids.length < 2 ^ 31) (hrange : ∀ g ∈ group_ids, g < 2 ^ 31)
    (hsorted : group_ids.Pairwise (fun a b => a ≤ b)) :
    (∀ self : GstLibcameraPad, (gst_libcamera_pad_init self).stream_id_num = 0) ∧
    (∀ (self : GstLibcameraPad) (g : Nat), -2 ^ 31 ≤ self.stream_id_num →
      self.stream_id_num < 2 ^ 31 - 1 →
      (gst_libcamera_pad_push_stream_start create self g).stream_id_num =
        self.stream_id_num + 1) ∧
    (pushStreamStarts create (gst_libcamera_pad_init zeroed) group_ids).stream_id_num =
      group_ids.length ∧
    (pushStreamStarts create (gst_libcamera_pad_init zeroed)
      group_ids).parent.events.map StreamStart.group_id = group_ids ∧
    ((pushStreamStarts create (gst_libcamera_pad_init zeroed)
      group_ids).parent.events.map StreamStart.stream_id).Nodup := by
  have hrun := pushStreamStarts_eq create group_ids (gst_libcamera_pad_init zeroed)
    (by simp [gst_libcamera_pad_init])
    (by simp only [gst_libcamera_pad_init]; omega)
  rw [hrun]
  refine ⟨fun _ => rfl, ?_, by simp [gst_libcamera_pad_init], ?_, ?_⟩
  · intro self g h1 h2
    simp only [gst_libcamera_pad_push_stream_start]
    exact wrapInt32_of_range (by omega) (by omega)
  · simpa [gst_libcamera_pad_init, zeroed] using announced_group_id create group_ids 0
  · simpa [gst_libcamera_pad_init, zeroed] using
      announced_nodup create hcreate group_ids 0 (le_refl 0) hrange hsorted

end Libcamera.Gst

/-! ## The theorems at sample inputs -/

namespace Libcamera

/-- Three completions on a fresh session, the second one cancelled: two frame
descriptors come back, then none. -/
theorem completedBuffers_after_completions_witness :
    opened.completedBuffers_ = [] ∧
    (∀ r ∈ sampleCompletions,
      r.status ≠ RequestStatus.RequestCancelled → r.buffers ≠ []) ∧
    ∃ cam', opened.requestCompleteAll sampleCompletions = some cam' ∧
      List.Forall₂ CopiedFrom
        (sampleCompletions.filter
          (fun r => decide (r.status ≠ RequestStatus.RequestCancelled)))
        cam'.completedBuffers.1 ∧
      cam'.completedBuffers.2.completedBuffers.1 = [] :=
  ⟨rfl, by decide,
    completedBuffers_after_completions opened sampleCompletions rfl (by decide)⟩

/-- Two buffers queued on an idle session, then a start that the engine
accepts: both requests reach the engine, in order, and the request built by
a third `qbuf()` reaches it behind them. -/
theorem qbuf_idle_then_streamOn_witness :
    opened.isRunning_ = false ∧
    (qbufAll acceptAll opened [0, 1]).1 = [0, 0] ∧
    ((qbufAll acceptAll opened [0, 1]).2.streamOn acceptAll).1 = 0 ∧
    submitted ((qbufAll acceptAll opened [0, 1]).2.streamOn acceptAll).2.camera_ =
      submitted opened.camera_ ++ (qbufAll acceptAll opened [0, 1]).2.pendingRequests_ ∧
    (qbufAll acceptAll opened [0, 1]).2.pendingRequests_ =
      [some (builtRequest 1 0), some (builtRequest 3 1)] ∧
    ((qbufAll acceptAll opened [0, 1]).2.streamOn acceptAll).2.pendingRequests_ = [] ∧
    ((qbufAll acceptAll opened [0, 1]).2.streamOn acceptAll).2.isRunning_ = true ∧
    submitted
        (((qbufAll acceptAll opened [0, 1]).2.streamOn acceptAll).2.qbuf acceptAll 2).2.camera_ =
      submitted opened.camera_ ++ (qbufAll acceptAll opened [0, 1]).2.pendingRequests_ ++
        [some (builtRequest 8 2)] :=
  have h := qbuf_idle_then_streamOn acceptAll opened
    (qbufAll acceptAll opened [0, 1]).2
    ((qbufAll acceptAll opened [0, 1]).2.streamOn acceptAll).2 [0, 1]
    (qbufAll acceptAll opened [0, 1]).1
    ((qbufAll acceptAll opened [0, 1]).2.streamOn acceptAll).1
    rfl rfl (by decide) rfl (by decide) (by decide)
  ⟨rfl, by decide, h.2.2.1, h.2.2.2.1, by decide, h.2.2.2.2.1, h.2.2.2.2.2.1,
    h.2.2.2.2.2.2.1 2 (builtRequest 8 2) (by decide)⟩

/-- A start on a fresh session, then a second one. -/
theorem streamOn_twice_witness :
    (opened.streamOn acceptAll).1 = 0 ∧
    (opened.streamOn acceptAll).2.streamOn acceptAll = (0, (opened.streamOn acceptAll).2) :=
  ⟨by decide, (streamOn_twice acceptAll opened (by decide)).1⟩

/-- Two buffers queued on an idle session, then a start whose first flushed
request is rejected: the session is running and the call failed. -/
theorem streamOn_idle_marks_running_witness :
    (qbufAll rejecting opened [0, 1]).2.isRunning_ = false ∧
    0 ≤ rejecting.start (qbufAll rejecting opened [0, 1]).2.camera_ ∧
    ((qbufAll rejecting opened [0, 1]).2.streamOn rejecting).2.isRunning_ = true ∧
    ((qbufAll rejecting opened [0, 1]).2.streamOn rejecting).1 < 0 :=
  have h := streamOn_idle_marks_running rejecting (qbufAll rejecting opened [0, 1]).2
    (by decide) (by decide)
  ⟨by decide, by decide, h.1,
    (h.2.2 0 (by decide) (fun j hj => absurd hj (Nat.not_lt_zero j)) (by decide)).2.1⟩

/-- Two buffers queued on an idle session, then a start whose first flushed
request is rejected: the second request is still in the pending list, also
after a stop, a start, a third `qbuf()` and another start. -/
theorem streamOn_rejected_keeps_pending_witness :
    (qbufAll rejecting opened [0, 1]).2.isRunning_ = false ∧
    flushAnswer rejecting ((qbufAll rejecting opened [0, 1]).2.camera_ ++ [CameraCall.start])
      (qbufAll rejecting opened [0, 1]).2.pendingRequests_ 0 = -EINVAL ∧
    ((qbufAll rejecting opened [0, 1]).2.streamOn rejecting).2.pendingRequests_ =
      List.replicate (0 + 1) none ++
        (qbufAll rejecting opened [0, 1]).2.pendingRequests_.drop (0 + 1) ∧
    ((qbufAll rejecting opened [0, 1]).2.streamOn rejecting).2.isRunning_ = true ∧
    (runSessionCalls rejecting ((qbufAll rejecting opened [0, 1]).2.streamOn rejecting).2
      [SessionCall.streamOff, SessionCall.streamOn, SessionCall.qbuf 2,
        SessionCall.streamOn]).pendingRequests_ = [none, some (builtRequest 3 1)] ∧
    ∃ appended more,
      (runSessionCalls rejecting ((qbufAll rejecting opened [0, 1]).2.streamOn rejecting).2
        [SessionCall.streamOff, SessionCall.streamOn, SessionCall.qbuf 2,
          SessionCall.streamOn]).pendingRequests_ =
        List.replicate (0 + 1) none ++
          (qbufAll rejecting opened [0, 1]).2.pendingRequests_.drop (0 + 1) ++ appended ∧
      submitted
          (runSessionCalls rejecting
            ((qbufAll rejecting opened [0, 1]).2.streamOn rejecting).2
            [SessionCall.streamOff, SessionCall.streamOn, SessionCall.qbuf 2,
              SessionCall.streamOn]).camera_ =
        submitted (qbufAll rejecting opened [0, 1]).2.camera_ ++
          (qbufAll rejecting opened [0, 1]).2.pendingRequests_.take (0 + 1) ++ more ∧
      ∀ x ∈ more,
        NotFromPending rejecting
          [SessionCall.streamOff, SessionCall.streamOn, SessionCall.qbuf 2,
            SessionCall.streamOn] x :=
  have h := streamOn_rejected_keeps_pending rejecting (qbufAll rejecting opened [0, 1]).2 0
    (by decide) (by decide) (by decide) (fun j hj => absurd hj (Nat.not_lt_zero j))
    (by decide)
  ⟨by decide, by decide, h.2.2.2.1, h.2.2.2.2.1, by decide,
    h.2.2.2.2.2.2.1 (fun _ => (by decide : -EINVAL < 0))
      [SessionCall.streamOff, SessionCall.streamOn, SessionCall.qbuf 2,
        SessionCall.streamOn]⟩

/-- Engines answering `-EACCES` and `-EINVAL` at each boundary. -/
theorem busy_translation_witness :
    (opened.allocBuffers denying 4).1 = -EBUSY ∧
    (opened.streamOn denyingStart).1 = -EBUSY ∧
    ((qbufAll denying opened [0]).2.streamOn denying).1 = -EBUSY ∧
    ((opened.streamOn denying).2.streamOff denying).1 = -EBUSY ∧
    ((opened.streamOn denying).2.qbuf denying 0).1 = -EBUSY ∧
    ((opened.streamOn rejecting).2.qbuf rejecting 0).1 = -EINVAL ∧
    (opened.configure denying { width := 0, height := 0 } 0 0).ret = -EINVAL :=
  ⟨((busy_translation denying).1 opened 4).1 (by decide),
    ((busy_translation denyingStart).2.1 opened (by decide) (by decide)).1 (by decide),
    ((busy_translation denying).2.2.1 (qbufAll denying opened [0]).2 0 (by decide)
      (by decide) (by decide) (fun j hj => absurd hj (Nat.not_lt_zero j)) (by decide)).1
      (by decide),
    ((busy_translation denying).2.2.2.1 (opened.streamOn denying).2 (by decide)
      (by decide)).1 (by decide),
    ((busy_translation denying).2.2.2.2.1 (opened.streamOn denying).2 0
      (builtRequest 2 0) _ (by decide) rfl (by decide)).1 (by decide),
    ((busy_translation rejecting).2.2.2.2.1 (opened.streamOn rejecting).2 0
      (builtRequest 2 0) _ (by decide) rfl (by decide)).2 (by decide),
    (busy_translation denying).2.2.2.2.2.1 opened { width := 0, height := 0 } 0 0
      (by decide)⟩

/-- A zero-sized request on a session configured for 640x480. -/
theorem configure_invalid_witness :
    (acceptAll.validate (opened.requested { width := 0, height := 0 } 3 2)).1 =
      ConfigStatus.Invalid ∧
    (opened.configure acceptAll { width := 0, height := 0 } 3 2).ret = -EINVAL ∧
    (opened.configure acceptAll { width := 0, height := 0 } 3 2).cam.camera_ =
      opened.camera_ ∧
    (opened.configure acceptAll { width := 0, height := 0 } 3 2).cam.getStreamConfig =
      { size := { width := 0, height := 0 }, pixelFormat := 3, bufferCount := 2 } :=
  have h := configure_invalid acceptAll opened { width := 0, height := 0 } 3 2 (by decide)
  ⟨by decide, h.1, h.2.2.1, h.2.2.2.2.2 (by decide)⟩

/-- A request for zero buffers, which the validation raises to one. -/
theorem configure_adjusted_witness :
    (acceptAll.validate (opened.requested { width := 320, height := 240 } 1 0)).1 =
      ConfigStatus.Adjusted ∧
    (opened.configure acceptAll { width := 320, height := 240 } 1 0).ret = 0 ∧
    (opened.configure acceptAll { width := 320, height := 240 } 1 0).streamConfigOut =
      some (acceptAll.validate (opened.requested { width := 320, height := 240 } 1 0)).2.at0 ∧
    (acceptAll.validate (opened.requested { width := 320, height := 240 } 1 0)).2.at0 =
      { size := { width := 320, height := 240 }, pixelFormat := 1, bufferCount := 1 } :=
  have h := configure_adjusted acceptAll opened { width := 320, height := 240 } 1 0
    (by decide) (by decide)
  ⟨by decide, h.1, (h.2.2.2.2 (by decide)).1, by decide⟩

end Libcamera

namespace Libcamera.Gst

/-- Three announcements with group ids 5, 5 and 7. -/
theorem stream_ids_unique_witness :
    Function.Injective (fun text : List Char => text) ∧
    (pushStreamStarts (fun text => text) (gst_libcamera_pad_init zeroed)
      [5, 5, 7]).stream_id_num = ([5, 5, 7] : List Nat).length ∧
    ((pushStreamStarts (fun text => text) (gst_libcamera_pad_init zeroed)
      [5, 5, 7]).parent.events.map StreamStart.stream_id).Nodup :=
  have h := stream_ids_unique (fun text => text) (fun _ _ e => e) [5, 5, 7]
    (by decide) (by decide) (by decide)
  ⟨fun _ _ e => e, h.2.2.1, h.2.2.2.2⟩

end Libcamera.Gst
